import Mathlib

/-!
Verification of the rrdns recursive DNS resolver (Rust) against its
natural-language specification.  The definitions below are a shallow
embedding of the Rust sources: `src/business/models.rs` (data model and
wire codec), `src/resolver/cache.rs` (TTL cache), `src/resolver.rs`
(resolution engine), `src/handler.rs` (front-end handler),
`src/reactor.rs` (UDP multiplexer) and `src/resolver/zone.rs`.

Conventions of the embedding:
 - Rust machine integers (`u8`, `u16`, `u32`) become `Nat`; wrapping
   arithmetic is written explicitly with `% 2 ^ w` where the source can
   overflow.
 - Rust `String` becomes Lean `String`; byte-level operations are taken
   char-by-char, which agrees with the source on ASCII data (hypotheses
   in theorems restrict to ASCII where byte identity matters).
 - `HashMap` becomes an association list with lookup on the key and
   insert-or-replace semantics; iteration order is never relevant to the
   claims.
 - Code that can `panic!` (slice indexing, `unwrap`, explicit panics) is
   embedded in the `PanicOr` monad-like result type: `.panicked msg`
   marks a process abort, `.ok v` a normal value.
 - Side effects (clock, randomness, sockets, the recursive `resolve`
   re-entry) are passed explicitly as parameters or oracle functions.
-/

/-- Result of running a piece of Rust code that may `panic!`: either a
normal value or a process abort carrying the panic message. -/
inductive PanicOr (α : Type) where
  | panicked (msg : String) : PanicOr α
  | ok (val : α) : PanicOr α
deriving Repr, DecidableEq

namespace Rrdns

/-- IPv4 address, four octets (`std::net::Ipv4Addr`). -/
structure Ipv4 where
  o1 : Nat
  o2 : Nat
  o3 : Nat
  o4 : Nat
deriving Repr, DecidableEq

/-- IPv6 address as the eight 16-bit groups passed to `Ipv6Addr::new` in
`models.rs`. -/
structure Ipv6 where
  g1 : Nat
  g2 : Nat
  g3 : Nat
  g4 : Nat
  g5 : Nat
  g6 : Nat
  g7 : Nat
  g8 : Nat
deriving Repr, DecidableEq

/-- ResponseCode from `models.rs`. -/
inductive ResponseCode where
  | NoError
  | FormatError
  | NameError
  | NotImplemented
  | Refused
deriving Repr, DecidableEq

/-- OpCode from `models.rs`. -/
inductive OpCode where
  | Query
  | IQuery
  | Status
  | Notify
  | Update
deriving Repr, DecidableEq

/-- MXData from `models.rs`. -/
structure MXData where
  preference : Nat
  exchange : String
deriving Repr, DecidableEq

/-- TXTData from `models.rs`. -/
structure TXTData where
  length : Nat
  data : String
deriving Repr, DecidableEq

/-- SOAData from `models.rs`. -/
structure SOAData where
  mname : String
  rname : String
  serial : Nat
  refresh_in_secs : Nat
  retry_in_secs : Nat
  expire_in_secs : Nat
  minimum : Nat
deriving Repr, DecidableEq

/-- The `Type` enum of `models.rs` (renamed `RType`: `Type` is reserved in
Lean).  Each variant carries the record payload. -/
inductive RType where
  | A (ip : Ipv4)
  | NS (dname : String)
  | CNAME (dname : String)
  | SOA (data : SOAData)
  | PTR (dname : String)
  | HINFO
  | MX (data : MXData)
  | AAAA (ip : Ipv6)
  | TXT (data : TXTData)
deriving Repr, DecidableEq

/-- QType from `models.rs`. -/
inductive QType where
  | A
  | NS
  | CNAME
  | SOA
  | PTR
  | HINFO
  | MX
  | AAAA
  | TXT
  | AXFR
  | MAILB
  | MAILA
  | STAR
deriving Repr, DecidableEq

/-- Class from `models.rs` (renamed `RClass`: `class` is reserved in Lean). -/
inductive RClass where
  | IN
  | CH
deriving Repr, DecidableEq

/-- QClass from `models.rs`. -/
inductive QClass where
  | IN
  | CH
  | STAR
deriving Repr, DecidableEq

/-- Type::to_qtype from `models.rs`. -/
def RType.to_qtype : RType → QType
  | .A _ => .A
  | .NS _ => .NS
  | .CNAME _ => .CNAME
  | .SOA _ => .SOA
  | .PTR _ => .PTR
  | .HINFO => .HINFO
  | .MX _ => .MX
  | .AAAA _ => .AAAA
  | .TXT _ => .TXT

/-- Type::to_u16 from `models.rs`. -/
def RType.to_u16 : RType → Nat
  | .A _ => 1
  | .NS _ => 2
  | .CNAME _ => 5
  | .SOA _ => 6
  | .PTR _ => 12
  | .HINFO => 13
  | .MX _ => 15
  | .AAAA _ => 28
  | .TXT _ => 16

/-- QType::to_u16 from `models.rs`. -/
def QType.to_u16 : QType → Nat
  | .A => 1
  | .NS => 2
  | .CNAME => 5
  | .SOA => 6
  | .PTR => 12
  | .HINFO => 13
  | .MX => 15
  | .TXT => 16
  | .AAAA => 28
  | .AXFR => 252
  | .MAILB => 253
  | .MAILA => 254
  | .STAR => 255

/-- Class::to_u16 from `models.rs`. -/
def RClass.to_u16 : RClass → Nat
  | .IN => 1
  | .CH => 3

/-- QClass::to_u16 from `models.rs`. -/
def QClass.to_u16 : QClass → Nat
  | .IN => 1
  | .CH => 2
  | .STAR => 255

/-- ResponseCode::to_u8 from `models.rs`. -/
def ResponseCode.to_u8 : ResponseCode → Nat
  | .NoError => 0
  | .FormatError => 1
  | .NameError => 3
  | .NotImplemented => 4
  | .Refused => 5

/-- ResourceRecord from `models.rs`; `r#type` is rendered `rtype` and
`class` is rendered `rclass` (Lean keywords). -/
structure ResourceRecord where
  name : String
  rtype : RType
  rclass : RClass
  ttl : Nat
  rd_length : Nat
deriving Repr, DecidableEq

/-- Embedding of Rust `str::ends_with(char)`: does the final character of
the string equal `c`? -/
def endsWithChar (s : String) (c : Char) : Bool :=
  s.data.getLast? == some c

/-- Embedding of Rust `str::to_lowercase` (agrees on ASCII). -/
def strToLower (s : String) : String :=
  ⟨s.data.map Char.toLower⟩

/-! ## Cache (`src/resolver/cache.rs`) -/

/-- CachedResourceRecord from `cache.rs`: a record plus the seconds-since-
epoch timestamp of its last refresh. -/
structure CachedResourceRecord where
  rr : ResourceRecord
  last_refreshed_at : Nat
deriving Repr, DecidableEq

/-- Unsigned 32-bit wrapping subtraction, as performed by
`now as u32 - self.last_refreshed_at` in release builds. -/
def u32sub (a b : Nat) : Nat :=
  (a + 2 ^ 32 - b % 2 ^ 32) % 2 ^ 32

/-- CachedResourceRecord::is_expired from `cache.rs`, with the clock value
`now` (seconds since epoch, a `u32` in the source) passed explicitly. -/
def CachedResourceRecord.is_expired (now : Nat) (crr : CachedResourceRecord) : Bool :=
  u32sub now crr.last_refreshed_at > crr.rr.ttl

/-- The inner `HashMap<QType, CRRSet>` of the cache store, as an
association list. -/
abbrev TypeMap : Type := List (QType × List CachedResourceRecord)

/-- The cache `Store` (`HashMap<String, HashMap<QType, CRRSet>>`), as an
association list keyed by owner name. -/
abbrev Store : Type := List (String × TypeMap)

/-- Association-list lookup, the embedding of `HashMap::get`. -/
def alistGet {α β : Type} [DecidableEq α] : List (α × β) → α → Option β
  | [], _ => none
  | (k, v) :: rest, key => if k = key then some v else alistGet rest key

/-- Embedding of the `HashMap::entry(key).or_insert_with(default)` /
mutate pattern: if the key is present its value is transformed by `f`,
otherwise `(key, f default)` is appended. -/
def alistModify {α β : Type} [DecidableEq α] (key : α) (dflt : β) (f : β → β) :
    List (α × β) → List (α × β)
  | [] => [(key, f dflt)]
  | (k, v) :: rest =>
      if k = key then (k, f v) :: rest else (k, v) :: alistModify key dflt f rest

/-- InMemoryCache::get from `cache.rs`: look up owner then qtype, drop
expired records, return `none` on a fully empty result.  The clock is the
explicit `now` parameter. -/
def cacheGet (now : Nat) (store : Store) (domain : String) (qtype : QType) :
    Option (List ResourceRecord) :=
  match alistGet store domain with
  | none => none
  | some owner =>
    match alistGet owner qtype with
    | none => none
    | some cached_rrs =>
      let result := (cached_rrs.filter
        (fun crr => !(crr.is_expired now))).map (fun crr => crr.rr)
      if result.length = 0 then none else some result

/-- InMemoryCache::insert2 from `cache.rs`: ensure a trailing dot on the
owner key, then append the record to the `(domain, qtype)` bucket unless
some cached record there already has `rr.name == domain` and the same
qtype.  Note the source compares names and qtypes only — never the
payload — and stores the record with its original (unnormalized) name. -/
def insert2 (now : Nat) (store : Store) (resource_record : ResourceRecord) : Store :=
  let domain := if !(endsWithChar resource_record.name '.') then
      resource_record.name ++ "." else resource_record.name
  let qtype := resource_record.rtype.to_qtype
  alistModify domain ([] : TypeMap)
    (fun qmap => alistModify qtype ([] : List CachedResourceRecord)
      (fun cached_rrs =>
        if (cached_rrs.find? (fun crr =>
              crr.rr.name == domain && crr.rr.rtype.to_qtype == qtype)).isNone then
          cached_rrs ++ [{ rr := resource_record, last_refreshed_at := now }]
        else cached_rrs)
      qmap)
    store

/-- Owner names currently keying the cache store. -/
def storeKeys (store : Store) : List String :=
  store.map (fun e => e.1)

/-- The `(domain, qtype)` bucket of the store (empty when either level of
the map has no entry), used to state cache theorems. -/
def cacheBucket (store : Store) (domain : String) (qtype : QType) :
    List CachedResourceRecord :=
  match alistGet store domain with
  | none => []
  | some owner =>
    match alistGet owner qtype with
    | none => []
    | some cached_rrs => cached_rrs

/-- Embedding of Rust `str::split('.')` at the character level: splits on
every dot, keeping empty pieces (so `"a."` yields `["a", ""]` and `""`
yields `[""]`). -/
def splitOnDot : List Char → List (List Char)
  | [] => [[]]
  | c :: rest =>
    if c = '.' then [] :: splitOnDot rest
    else
      match splitOnDot rest with
      | [] => [[c]]
      | h :: t => (c :: h) :: t

/-- compute_label_length from `cache.rs`: 0 for the root name, otherwise
the sum over the dot-separated parts of `part.len() + 1`. -/
def compute_label_length (label : String) : Nat :=
  if label = "." then 0
  else (splitOnDot label.data).foldl (fun acc part => acc + part.length + 1) 0

/-- Modelled from the spec: the root-hints data.  The file
`src/resolver/named.root` that `InMemoryCache::load_root_name_servers`
parses at runtime is not among the sources; per the spec it is IANA's
root-hints table: 13 root servers, each with an NS record owned by `"."`
plus A and AAAA glue, all with TTL 3,600,000.  Each tuple is
`(server name as written in the file, A address, AAAA address)`. -/
def rootHintEntries : List (String × Ipv4 × Ipv6) :=
  [("A.ROOT-SERVERS.NET.", ⟨198, 41, 0, 4⟩, ⟨0x2001, 0x503, 0xba3e, 0, 0, 0, 0x2, 0x30⟩),
   ("B.ROOT-SERVERS.NET.", ⟨199, 9, 14, 201⟩, ⟨0x2801, 0x1b8, 0x10, 0, 0, 0, 0, 0xb⟩),
   ("C.ROOT-SERVERS.NET.", ⟨192, 33, 4, 12⟩, ⟨0x2001, 0x500, 0x2, 0, 0, 0, 0, 0xc⟩),
   ("D.ROOT-SERVERS.NET.", ⟨199, 7, 91, 13⟩, ⟨0x2001, 0x500, 0x2d, 0, 0, 0, 0, 0xd⟩),
   ("E.ROOT-SERVERS.NET.", ⟨192, 203, 230, 10⟩, ⟨0x2001, 0x500, 0xa8, 0, 0, 0, 0, 0xe⟩),
   ("F.ROOT-SERVERS.NET.", ⟨192, 5, 5, 241⟩, ⟨0x2001, 0x500, 0x2f, 0, 0, 0, 0, 0xf⟩),
   ("G.ROOT-SERVERS.NET.", ⟨192, 112, 36, 4⟩, ⟨0x2001, 0x500, 0x12, 0, 0, 0, 0, 0xd0d⟩),
   ("H.ROOT-SERVERS.NET.", ⟨198, 97, 190, 53⟩, ⟨0x2001, 0x500, 0x1, 0, 0, 0, 0, 0x53⟩),
   ("I.ROOT-SERVERS.NET.", ⟨192, 36, 148, 17⟩, ⟨0x2001, 0x7fe, 0, 0, 0, 0, 0, 0x53⟩),
   ("J.ROOT-SERVERS.NET.", ⟨192, 58, 128, 30⟩, ⟨0x2001, 0x503, 0xc27, 0, 0, 0, 0x2, 0x30⟩),
   ("K.ROOT-SERVERS.NET.", ⟨193, 0, 14, 129⟩, ⟨0x2001, 0x7fd, 0, 0, 0, 0, 0, 0x1⟩),
   ("L.ROOT-SERVERS.NET.", ⟨199, 7, 83, 42⟩, ⟨0x2001, 0x500, 0x9f, 0, 0, 0, 0, 0x42⟩),
   ("M.ROOT-SERVERS.NET.", ⟨202, 12, 27, 33⟩, ⟨0x2001, 0xdc3, 0, 0, 0, 0, 0, 0x35⟩)]

/-- InMemoryCache::load_root_name_servers from `cache.rs`, applied to the
spec-modelled hints data: per server one NS record owned by `"."` (value
lowercased, `rd_length` via `compute_label_length`), one A record
(`rd_length` 4) and one AAAA record (`rd_length` 16), names lowercased,
`last_refreshed_at` set to the boot clock value. -/
def load_root_name_servers (boot : Nat) : List CachedResourceRecord :=
  rootHintEntries.flatMap (fun entry =>
    [{ rr := { name := strToLower ".", rtype := .NS (strToLower entry.1),
               rclass := .IN, ttl := 3600000,
               rd_length := compute_label_length entry.1 },
       last_refreshed_at := boot },
     { rr := { name := strToLower entry.1, rtype := .A entry.2.1,
               rclass := .IN, ttl := 3600000, rd_length := 4 },
       last_refreshed_at := boot },
     { rr := { name := strToLower entry.1, rtype := .AAAA entry.2.2,
               rclass := .IN, ttl := 3600000, rd_length := 16 },
       last_refreshed_at := boot }])

/-- InMemoryCache::new from `cache.rs`: fold the root records into an
empty store, keying each by its lowercased owner name and qtype. -/
def InMemoryCache.new (boot : Nat) : Store :=
  (load_root_name_servers boot).foldl
    (fun store crr =>
      let owner := strToLower crr.rr.name
      let qtype := crr.rr.rtype.to_qtype
      alistModify owner ([] : TypeMap)
        (fun type_map =>
          alistModify qtype ([] : List CachedResourceRecord)
            (fun v => v ++ [crr]) type_map)
        store)
    []

/-! ## Cache theorems (claims C1, C4, C9) -/

/-- Characterization of `is_expired`: under a monotone 32-bit clock a
cached record is unexpired exactly when `now - last_refresh ≤ ttl`. -/
theorem is_expired_eq_false_iff (now : Nat) (crr : CachedResourceRecord)
    (h1 : crr.last_refreshed_at ≤ now) (h2 : now < 2 ^ 32) :
    crr.is_expired now = false ↔ now - crr.last_refreshed_at ≤ crr.rr.ttl := by
  simp only [CachedResourceRecord.is_expired, u32sub, gt_iff_lt,
    decide_eq_false_iff_not, not_lt]
  omega

/-- Claim C1: cache insertion is claimed to deduplicate only on full
(owner, type, payload) identity, so that two records with the same owner
and type but different payloads coexist.  Evaluating `insert2` at such a
pair shows the second record is dropped: the duplicate check in
`cache.rs` compares only owner name and qtype, never the payload.
Additionally, the claimed `insert(r)`-then-`get(r.owner, qtype(r))`
round trip fails when `r.owner` lacks the trailing dot, because the
record is stored under the normalized key while `get` uses the raw
owner. -/
theorem C1_insert2_ignores_payload :
    cacheGet 0
        (insert2 0
          (insert2 0 ([] : Store)
            { name := "x.com.", rtype := .A ⟨1, 1, 1, 1⟩, rclass := .IN,
              ttl := 300, rd_length := 4 })
          { name := "x.com.", rtype := .A ⟨2, 2, 2, 2⟩, rclass := .IN,
            ttl := 300, rd_length := 4 })
        "x.com." QType.A
      = some [{ name := "x.com.", rtype := .A ⟨1, 1, 1, 1⟩, rclass := .IN,
                ttl := 300, rd_length := 4 }]
    ∧ cacheGet 0
        (insert2 0 ([] : Store)
          { name := "www.karanry.com", rtype := .A ⟨123, 23, 23, 23⟩,
            rclass := .IN, ttl := 2, rd_length := 23 })
        "www.karanry.com" QType.A
      = none := by
  decide

/-- Claim C4: `get` returns exactly the live records — those with
`now - last_refresh ≤ ttl` — of the `(owner, qtype)` bucket, and returns
`none` exactly when no such record exists (no entry, or all matching
records expired).  Hypotheses: the 32-bit clock has not wrapped and no
cached timestamp lies in the future. -/
theorem C4_get_returns_exactly_live (now : Nat) (store : Store)
    (domain : String) (qtype : QType) (h2 : now < 2 ^ 32)
    (h1 : ∀ crr ∈ cacheBucket store domain qtype, crr.last_refreshed_at ≤ now) :
    (cacheGet now store domain qtype = none ↔
        ((cacheBucket store domain qtype).filter
          (fun crr => decide (now - crr.last_refreshed_at ≤ crr.rr.ttl))) = [])
      ∧ ∀ rs, cacheGet now store domain qtype = some rs →
          rs = ((cacheBucket store domain qtype).filter
            (fun crr => decide (now - crr.last_refreshed_at ≤ crr.rr.ttl))).map
              (fun crr => crr.rr) := by
  have hfilter : ∀ l : List CachedResourceRecord,
      (∀ crr ∈ l, crr.last_refreshed_at ≤ now) →
      l.filter (fun crr => !(crr.is_expired now)) =
        l.filter (fun crr => decide (now - crr.last_refreshed_at ≤ crr.rr.ttl)) := by
    intro l hl
    apply List.filter_congr
    intro crr hc
    have hiff := is_expired_eq_false_iff now crr (hl crr hc) h2
    cases hx : crr.is_expired now
    · simp only [hx, Bool.not_false]
      exact (decide_eq_true (hiff.mp hx)).symm
    · simp only [hx, Bool.not_true]
      refine (decide_eq_false ?_).symm
      intro hcon
      simp [hiff.mpr hcon] at hx
  rcases halist : alistGet store domain with _ | owner
  · have hbucket : cacheBucket store domain qtype = [] := by
      simp [cacheBucket, halist]
    constructor
    · simp [cacheGet, halist, hbucket]
    · intro rs hrs
      simp [cacheGet, halist] at hrs
  · rcases hq : alistGet owner qtype with _ | cached_rrs
    · have hbucket : cacheBucket store domain qtype = [] := by
        simp [cacheBucket, halist, hq]
      constructor
      · simp [cacheGet, halist, hq, hbucket]
      · intro rs hrs
        simp [cacheGet, halist, hq] at hrs
    · have hbucket : cacheBucket store domain qtype = cached_rrs := by
        simp [cacheBucket, halist, hq]
      rw [hbucket] at h1 ⊢
      have hf := hfilter cached_rrs h1
      have hget : cacheGet now store domain qtype =
          (if ((cached_rrs.filter (fun crr =>
                decide (now - crr.last_refreshed_at ≤ crr.rr.ttl))).map
                  (fun crr => crr.rr)).length = 0 then none
           else some ((cached_rrs.filter (fun crr =>
                decide (now - crr.last_refreshed_at ≤ crr.rr.ttl))).map
                  (fun crr => crr.rr))) := by
        simp only [cacheGet, halist, hq, hf]
      rw [hget]
      constructor
      · constructor
        · intro hnone
          by_cases hlen : ((cached_rrs.filter (fun crr =>
              decide (now - crr.last_refreshed_at ≤ crr.rr.ttl))).map
                (fun crr => crr.rr)).length = 0
          · exact List.length_eq_zero.mp (by simpa using hlen)
          · rw [if_neg hlen] at hnone
            exact absurd hnone (by simp)
        · intro hempty
          rw [if_pos (by rw [hempty]; rfl)]
      · intro rs hrs
        by_cases hlen : ((cached_rrs.filter (fun crr =>
            decide (now - crr.last_refreshed_at ≤ crr.rr.ttl))).map
              (fun crr => crr.rr)).length = 0
        · rw [if_pos hlen] at hrs
          exact Option.noConfusion hrs
        · rw [if_neg hlen] at hrs
          exact (Option.some.inj hrs).symm

/-- Concrete cache state used to instantiate the C4 theorem: one bucket
holding an expired record (ttl 2, refreshed at 0) and a live one. -/
def c4Store : Store :=
  [("x.com.",
    [(QType.A,
      [{ rr := { name := "x.com.", rtype := .A ⟨1, 1, 1, 1⟩, rclass := .IN,
                 ttl := 2, rd_length := 4 }, last_refreshed_at := 0 },
       { rr := { name := "x.com.", rtype := .A ⟨2, 2, 2, 2⟩, rclass := .IN,
                 ttl := 100, rd_length := 4 }, last_refreshed_at := 0 }])])]

/-- Witness for C4 at clock 10: hypotheses hold for `c4Store`, and the
conclusion instantiates (the ttl-2 record is excluded 10 seconds after
refresh, the ttl-100 record is returned). -/
theorem C4_get_returns_exactly_live_witness :
    (10 < 2 ^ 32 ∧
      ∀ crr ∈ cacheBucket c4Store "x.com." QType.A, crr.last_refreshed_at ≤ 10)
    ∧ ((cacheGet 10 c4Store "x.com." QType.A = none ↔
          ((cacheBucket c4Store "x.com." QType.A).filter
            (fun crr => decide (10 - crr.last_refreshed_at ≤ crr.rr.ttl))) = [])
        ∧ ∀ rs, cacheGet 10 c4Store "x.com." QType.A = some rs →
            rs = ((cacheBucket c4Store "x.com." QType.A).filter
              (fun crr => decide (10 - crr.last_refreshed_at ≤ crr.rr.ttl))).map
                (fun crr => crr.rr)) :=
  ⟨⟨by norm_num, by decide⟩,
    C4_get_returns_exactly_live 10 c4Store "x.com." QType.A (by norm_num) (by decide)⟩

/-- Claim C9 counterexample: `insert2` ensures the trailing dot but never
lowercases the owner, so inserting a mixed-case record after the
root-hints preload leaves a non-lowercase key in the store. -/
theorem C9_insert2_key_not_lowercased :
    "WWW.Example.COM." ∈ storeKeys
        (insert2 5 (InMemoryCache.new 0)
          { name := "WWW.Example.COM.", rtype := .A ⟨9, 9, 9, 9⟩,
            rclass := .IN, ttl := 60, rd_length := 4 })
    ∧ strToLower "WWW.Example.COM." ≠ "WWW.Example.COM." := by
  decide

/-- Keys after an `alistModify` are the old keys plus possibly the
modified key. -/
theorem mem_keys_alistModify {α β : Type} [DecidableEq α] (key : α) (dflt : β)
    (f : β → β) (l : List (α × β)) (k : α)
    (hk : k ∈ (alistModify key dflt f l).map (fun e => e.1)) :
    k ∈ l.map (fun e => e.1) ∨ k = key := by
  induction l with
  | nil =>
    simp [alistModify] at hk
    exact Or.inr hk
  | cons hd tl ih =>
    obtain ⟨k1, v1⟩ := hd
    simp only [alistModify] at hk
    by_cases hhd : k1 = key
    · rw [if_pos hhd] at hk
      simp only [List.map_cons, List.mem_cons] at hk ⊢
      rcases hk with h | h
      · exact Or.inl (Or.inl h)
      · exact Or.inl (Or.inr h)
    · rw [if_neg hhd] at hk
      simp only [List.map_cons, List.mem_cons] at hk ⊢
      rcases hk with h | h
      · exact Or.inl (Or.inl h)
      · rcases ih h with h2 | h2
        · exact Or.inl (Or.inr h2)
        · exact Or.inr h2

/-- Every key of the freshly constructed cache is the lowercased owner
name of one of the loaded root-hint records. -/
theorem mem_keys_new (boot : Nat) (k : String)
    (hk : k ∈ storeKeys (InMemoryCache.new boot)) :
    ∃ crr ∈ load_root_name_servers boot, k = strToLower crr.rr.name := by
  suffices h : ∀ (crrs : List CachedResourceRecord) (store : Store),
      k ∈ storeKeys (crrs.foldl
        (fun store crr =>
          let owner := strToLower crr.rr.name
          let qtype := crr.rr.rtype.to_qtype
          alistModify owner ([] : TypeMap)
            (fun type_map =>
              alistModify qtype ([] : List CachedResourceRecord)
                (fun v => v ++ [crr]) type_map)
            store)
        store) →
      k ∈ storeKeys store ∨ ∃ crr ∈ crrs, k = strToLower crr.rr.name by
    rcases h (load_root_name_servers boot) [] hk with h1 | h1
    · simp [storeKeys] at h1
    · exact h1
  intro crrs
  induction crrs with
  | nil => exact fun store h => Or.inl h
  | cons c cs ih =>
    intro store h
    rcases ih _ h with h1 | h1
    · simp only [storeKeys] at h1
      rcases mem_keys_alistModify _ _ _ _ _ h1 with h2 | h2
      · exact Or.inl h2
      · exact Or.inr ⟨c, by simp, h2⟩
    · rcases h1 with ⟨crr, hm, he⟩
      exact Or.inr ⟨crr, by simp [hm], he⟩

/-- Every loaded root-hint record is owned either by the root name or by
one of the 13 hint servers (lowercased). -/
theorem load_root_name_servers_names (boot : Nat) (crr : CachedResourceRecord)
    (hm : crr ∈ load_root_name_servers boot) :
    crr.rr.name = strToLower "." ∨
      ∃ e ∈ rootHintEntries, crr.rr.name = strToLower e.1 := by
  simp only [load_root_name_servers, List.mem_flatMap] at hm
  rcases hm with ⟨e, he, hmem⟩
  simp only [List.mem_cons, List.not_mem_nil, or_false] at hmem
  rcases hmem with rfl | rfl | rfl
  · exact Or.inl rfl
  · exact Or.inr ⟨e, he, rfl⟩
  · exact Or.inr ⟨e, he, rfl⟩

/-- Keys of the freshly constructed cache are lowercase and absolute. -/
theorem new_keys_normalized (boot : Nat) (k : String)
    (hk : k ∈ storeKeys (InMemoryCache.new boot)) :
    strToLower k = k ∧ endsWithChar k '.' = true := by
  rcases mem_keys_new boot k hk with ⟨crr, hm, rfl⟩
  rcases load_root_name_servers_names boot crr hm with h | ⟨e, he, h⟩
  · rw [h]; exact ⟨by decide, by decide⟩
  · rw [h]
    fin_cases he <;> exact ⟨by decide, by decide⟩

/-- Appending the dot character puts a dot at the end of the string. -/
theorem endsWithChar_append_dot (s : String) :
    endsWithChar (s ++ ".") '.' = true := by
  simp only [endsWithChar, String.data_append]
  rw [List.getLast?_concat]
  rfl

/-- Keys produced by `insert2` always carry the trailing dot: the store
key is the record owner with a dot appended when missing. -/
theorem insert2_keys_dot (now : Nat) (store : Store) (r : ResourceRecord)
    (h : ∀ k ∈ storeKeys store, endsWithChar k '.' = true) :
    ∀ k ∈ storeKeys (insert2 now store r), endsWithChar k '.' = true := by
  intro k hk
  simp only [insert2, storeKeys] at hk
  rcases mem_keys_alistModify _ _ _ _ _ hk with h1 | h1
  · exact h k h1
  · subst h1
    cases hd : endsWithChar r.name '.' <;> simp [hd, endsWithChar_append_dot]

/-- Claim C9, amended.  After construction every cache key is normalized
(lowercase and ending with a dot); after any further sequence of inserts
every key still ends with a dot, `insert2` appending the dot when the
owner lacks it — but `insert2` never lowercases, so mixed-case keys can
enter the store (see the counterexample). -/
theorem C9_keys_absolute :
    (∀ (boot : Nat), ∀ k ∈ storeKeys (InMemoryCache.new boot),
        strToLower k = k ∧ endsWithChar k '.' = true)
    ∧ ∀ (boot : Nat) (ops : List (Nat × ResourceRecord)),
        ∀ k ∈ storeKeys (ops.foldl (fun s p => insert2 p.1 s p.2)
            (InMemoryCache.new boot)),
          endsWithChar k '.' = true := by
  constructor
  · exact fun boot k hk => new_keys_normalized boot k hk
  · intro boot ops
    suffices hgen : ∀ (ops : List (Nat × ResourceRecord)) (store : Store),
        (∀ k ∈ storeKeys store, endsWithChar k '.' = true) →
        ∀ k ∈ storeKeys (ops.foldl (fun s p => insert2 p.1 s p.2) store),
          endsWithChar k '.' = true by
      exact hgen ops (InMemoryCache.new boot)
        (fun k hk => (new_keys_normalized boot k hk).2)
    intro ops
    induction ops with
    | nil => exact fun store h => h
    | cons p ps ih =>
      intro store h
      exact ih _ (insert2_keys_dot p.1 store p.2 h)

/-- Witness for the amended C9 at a concrete state: boot clock 0, one
mixed-case undotted insert; the resulting key still ends with a dot. -/
theorem C9_keys_absolute_witness :
    endsWithChar "MiXed.CaSe." '.' = true :=
  C9_keys_absolute.2 0
    [(7, { name := "MiXed.CaSe", rtype := .A ⟨8, 8, 8, 8⟩, rclass := .IN,
           ttl := 60, rd_length := 4 })]
    "MiXed.CaSe." (by decide)

/-! ## DNS messages, errors, handler (`models.rs`, `error.rs`, `handler.rs`) -/

/-- DNSQueryHeaderSection from `models.rs`; the 16-bit counts and id are
`Nat`s. -/
structure DNSQueryHeaderSection where
  id : Nat
  is_query : Bool
  op_code : OpCode
  is_authoritative_answer : Bool
  is_truncated : Bool
  is_recursion_desired : Bool
  is_recursion_available : Bool
  response_code : ResponseCode
  questions_count : Nat
  answers_count : Nat
  ns_rr_count : Nat
  additional_rr_count : Nat
deriving Repr, DecidableEq

/-- DNSQuestionQuery from `models.rs`. -/
structure DNSQuestionQuery where
  qname : String
  qtype : QType
  qclass : QClass
deriving Repr, DecidableEq

/-- DNSQuery from `models.rs`. -/
structure DNSQuery where
  header : DNSQueryHeaderSection
  questions : List DNSQuestionQuery
  additionals : List ResourceRecord
deriving Repr, DecidableEq

/-- DNSQueryResponse from `models.rs`. -/
structure DNSQueryResponse where
  query : DNSQuery
  answers : List ResourceRecord
  authority : List ResourceRecord
  additional : List ResourceRecord
deriving Repr, DecidableEq

/-- FetchError from `error.rs`; the `std::io::Error` payload of
`NetworkError` is embedded as its display string. -/
inductive FetchError where
  | QueryError (response : DNSQueryResponse)
  | NetworkError (err : String)
  | InfiniteRecursionError (msg : String)
  | NoIPError (msg : String)
deriving Repr, DecidableEq

/-- Decidable equality for `Except`, needed to evaluate embedded results
on concrete inputs. -/
instance {e a : Type} [DecidableEq e] [DecidableEq a] : DecidableEq (Except e a) :=
  fun x y =>
    match x, y with
    | .ok u, .ok v =>
      if h : u = v then .isTrue (by rw [h]) else .isFalse (by intro hc; cases hc; exact h rfl)
    | .error u, .error v =>
      if h : u = v then .isTrue (by rw [h]) else .isFalse (by intro hc; cases hc; exact h rfl)
    | .ok _, .error _ => .isFalse (by intro hc; cases hc)
    | .error _, .ok _ => .isFalse (by intro hc; cases hc)

/-- Handler::rewrite_query from `handler.rs`, with the random id drawn by
`random()` passed as `new_id`.  Panics on collision with the client id;
appends the trailing dot to the first question's qname when missing
(indexing `questions[0]`, which panics on an empty question list); clears
the additional section. -/
def rewrite_query (new_id : Nat) (query : DNSQuery) : PanicOr DNSQuery :=
  if new_id = query.header.id then .panicked "id collision"
  else
    match query.questions with
    | [] => .panicked "index out of bounds"
    | q0 :: rest =>
      let q0' := if !(endsWithChar q0.qname '.') then
          { q0 with qname := q0.qname ++ "." } else q0
      .ok { query with
              header := { query.header with
                            id := new_id
                            additional_rr_count := 0 }
              questions := q0' :: rest
              additionals := [] }

/-- Handler::handle from `handler.rs`, after the initial
`DNSQuery::deserialize` (the wire decoding is embedded separately; this
function receives the decoded query).  The resolver is the oracle
`resolve`; the fresh id is `new_id`.  The source remembers the client's
id/qname/qtype/qclass, rewrites, resolves, and post-processes: on `Ok` it
restores the id and sets RA; on `QueryError` it restores the id and the
first question's qname/qtype/qclass; other errors pass through. -/
def Handler.handle (new_id : Nat)
    (resolve : DNSQuery → Except FetchError DNSQueryResponse)
    (query : DNSQuery) : PanicOr (Except FetchError DNSQueryResponse) :=
  match query.questions with
  | [] => .panicked "index out of bounds"
  | q0 :: _ =>
    match rewrite_query new_id query with
    | .panicked msg => .panicked msg
    | .ok rewritten_query =>
      match resolve rewritten_query with
      | .ok response =>
        .ok (.ok { response with query := { response.query with header :=
          { response.query.header with
              id := query.header.id
              is_recursion_available := true } } })
      | .error (.QueryError response) =>
        match response.query.questions with
        | [] => .panicked "index out of bounds"
        | p0 :: ps =>
          .ok (.error (.QueryError { response with query :=
            { response.query with
                header := { response.query.header with id := query.header.id }
                questions := { p0 with
                                 qname := q0.qname
                                 qtype := q0.qtype
                                 qclass := q0.qclass } :: ps } }))
      | .error (.NetworkError err) => .ok (.error (.NetworkError err))
      | .error (.InfiniteRecursionError err) =>
        .ok (.error (.InfiniteRecursionError err))
      | .error (.NoIPError err) => .ok (.error (.NoIPError err))

/-- Concrete client query used for the C2 theorems: id 3, question
`google.com` (no trailing dot) A IN. -/
def c2Query : DNSQuery :=
  { header := { id := 3, is_query := true, op_code := .Query,
                is_authoritative_answer := false, is_truncated := false,
                is_recursion_desired := true, is_recursion_available := false,
                response_code := .NoError, questions_count := 1,
                answers_count := 0, ns_rr_count := 0, additional_rr_count := 0 }
    questions := [{ qname := "google.com", qtype := .A, qclass := .IN }]
    additionals := [] }

/-- Resolver oracle that answers every query with an empty-section
response echoing the query it received (as the real resolver echoes the
rewritten query in `resolve_from_cache` / `resolve_from_name_servers`). -/
def c2Echo : DNSQuery → Except FetchError DNSQueryResponse :=
  fun q => .ok { query := q, answers := [], authority := [], additional := [] }

/-- The rewrite of `c2Query` under fresh id 7: dot appended to the qname,
additional section cleared. -/
def c2Rewritten : DNSQuery :=
  { c2Query with
      header := { c2Query.header with id := 7 }
      questions := [{ qname := "google.com.", qtype := .A, qclass := .IN }] }

/-- Response of `c2Echo` to the rewritten query. -/
def c2Resp : DNSQueryResponse :=
  { query := c2Rewritten, answers := [], authority := [], additional := [] }

/-- Claim C2 counterexample: on the `Ok` path the handler restores the
client id and sets RA but does not restore the question section — the
client that sent `google.com` receives `google.com.` in the question. -/
theorem C2_ok_path_keeps_rewritten_qname :
    Handler.handle 7 c2Echo c2Query
      = .ok (.ok { query := { c2Rewritten with header :=
          { c2Rewritten.header with id := 3, is_recursion_available := true } }
                   answers := [], authority := [], additional := [] })
    ∧ ("google.com." : String) ≠ "google.com" := by
  constructor
  · decide
  · decide

/-- Claim C2, amended: for a resolution ending in `Ok(response)` the
handler restores the client's id and sets RA = 1, but leaves the question
section exactly as the resolver returned it (the rewritten, dotted
qname); for `QueryError(response)` the handler restores the client's id,
qname, qtype and qclass, but leaves the recursion-available flag
unchanged. -/
theorem C2_handle_restoration (new_id : Nat)
    (resolve : DNSQuery → Except FetchError DNSQueryResponse)
    (query : DNSQuery) (q0 : DNSQuestionQuery) (rest : List DNSQuestionQuery)
    (hq : query.questions = q0 :: rest)
    (rwq : DNSQuery) (hrw : rewrite_query new_id query = .ok rwq) :
    (∀ resp, resolve rwq = .ok resp →
      ∃ out, Handler.handle new_id resolve query = .ok (.ok out)
        ∧ out.query.header.id = query.header.id
        ∧ out.query.header.is_recursion_available = true
        ∧ out.query.questions = resp.query.questions
        ∧ out.answers = resp.answers)
    ∧ ∀ resp p0 ps, resolve rwq = .error (.QueryError resp) →
        resp.query.questions = p0 :: ps →
        ∃ out, Handler.handle new_id resolve query = .ok (.error (.QueryError out))
          ∧ out.query.header.id = query.header.id
          ∧ out.query.header.is_recursion_available
              = resp.query.header.is_recursion_available
          ∧ out.query.questions
              = { p0 with qname := q0.qname, qtype := q0.qtype, qclass := q0.qclass } :: ps := by
  constructor
  · intro resp hres
    refine ⟨{ resp with query := { resp.query with header := { resp.query.header with id := query.header.id, is_recursion_available := true } } }, ?_, rfl, rfl, rfl, rfl⟩
    simp only [Handler.handle, hq, hrw, hres]
  · intro resp p0 ps hres hqs
    refine ⟨{ resp with query := { resp.query with header := { resp.query.header with id := query.header.id }, questions := { p0 with qname := q0.qname, qtype := q0.qtype, qclass := q0.qclass } :: ps } }, ?_, rfl, rfl, rfl⟩
    simp only [Handler.handle, hq, hrw, hres, hqs]

/-- Witness for the amended C2, `Ok` path at the concrete query. -/
theorem C2_handle_restoration_witness :
    ∃ out, Handler.handle 7 c2Echo c2Query = .ok (.ok out)
      ∧ out.query.header.id = c2Query.header.id
      ∧ out.query.header.is_recursion_available = true
      ∧ out.query.questions = c2Resp.query.questions
      ∧ out.answers = c2Resp.answers :=
  (C2_handle_restoration 7 c2Echo c2Query
      { qname := "google.com", qtype := .A, qclass := .IN } [] (by decide)
      c2Rewritten (by decide)).1 c2Resp (by decide)

/-! ## Reactor (`src/reactor.rs`, claim C7) -/

/-- ReactorQuery from `reactor/cmd.rs`: the query and the target peer
address (modelled as an opaque token); the oneshot `respond_tx` channel
is not a value — deliveries appear as outputs of the step function. -/
structure ReactorQuery where
  query : DNSQuery
  peer_addr : Nat
deriving Repr, DecidableEq

/-- Embedding of `HashMap::insert`: replace the binding when the key is
present, append it otherwise. -/
def hmInsert {α β : Type} [DecidableEq α] (m : List (α × β)) (k : α) (v : β) :
    List (α × β) :=
  alistModify k v (fun _ => v) m

/-- Submission arm of Reactor::run (`reactor.rs` lines 47-61): serialize
and send the query; on send success, check the registry for the id
(`error!` log only — second component reports whether the collision log
fired), then `registry.insert(id, cmd)`; on send failure, fulfill the
caller's oneshot with `NetworkError` (third component) and leave the
registry unchanged. -/
def reactorSubmitStep (registry : List (Nat × ReactorQuery)) (cmd : ReactorQuery)
    (sendOk : Bool) : List (Nat × ReactorQuery) × Bool × Option FetchError :=
  if sendOk then
    (hmInsert registry cmd.query.header.id cmd,
     (alistGet registry cmd.query.header.id).isSome, none)
  else
    (registry, false, some (.NetworkError "send_to error"))

/-- Claim C7 counterexample: submitting an id that is already registered
does not panic — the reactor logs the collision and overwrites the old
registration (whose completion is silently lost). -/
theorem C7_collision_overwrites :
    reactorSubmitStep [(5, { query := c2Query, peer_addr := 0 })]
        { query := { c2Query with header := { c2Query.header with id := 5 } },
          peer_addr := 1 }
        true
      = ([(5, { query := { c2Query with header := { c2Query.header with id := 5 } },
                peer_addr := 1 })],
         true, none) := by
  decide

/-- Lookup after `hmInsert` at the inserted key yields the new value. -/
theorem alistGet_hmInsert_self {α β : Type} [DecidableEq α]
    (m : List (α × β)) (k : α) (v : β) :
    alistGet (hmInsert m k v) k = some v := by
  induction m with
  | nil => simp [hmInsert, alistModify, alistGet]
  | cons hd tl ih =>
    obtain ⟨k1, v1⟩ := hd
    by_cases h : k1 = k
    · simp [hmInsert, alistModify, alistGet, h]
    · simp only [hmInsert, alistModify, if_neg h] at ih ⊢
      simp [alistGet, h, ih]

/-- The keys of an `alistModify` result stay duplicate-free. -/
theorem keys_alistModify_nodup {α β : Type} [DecidableEq α] (key : α) (dflt : β)
    (f : β → β) (l : List (α × β)) (h : (l.map (fun e => e.1)).Nodup) :
    ((alistModify key dflt f l).map (fun e => e.1)).Nodup := by
  induction l with
  | nil => simp [alistModify]
  | cons hd tl ih =>
    obtain ⟨k1, v1⟩ := hd
    simp only [List.map_cons, List.nodup_cons] at h
    by_cases hk : k1 = key
    · simp only [alistModify, if_pos hk, List.map_cons, List.nodup_cons]
      exact ⟨h.1, h.2⟩
    · simp only [alistModify, if_neg hk, List.map_cons, List.nodup_cons]
      refine ⟨?_, ih h.2⟩
      intro hmem
      rcases mem_keys_alistModify key dflt f tl k1 hmem with h2 | h2
      · exact h.1 h2
      · exact hk h2

/-- Claim C7, amended: on an id collision the reactor logs an error and
inserts anyway, replacing the pending registration (no panic is possible
on this path); the registry keys remain duplicate-free because the insert
overwrites, and the collision log fires exactly when the id was already
registered. -/
theorem C7_registry_unique_by_overwrite (registry : List (Nat × ReactorQuery))
    (cmd : ReactorQuery) (sendOk : Bool)
    (h : (registry.map (fun e => e.1)).Nodup) :
    ((reactorSubmitStep registry cmd sendOk).1.map (fun e => e.1)).Nodup
    ∧ (sendOk = true →
        alistGet (reactorSubmitStep registry cmd sendOk).1 cmd.query.header.id
            = some cmd
        ∧ ((reactorSubmitStep registry cmd sendOk).2.1 = true
            ↔ (alistGet registry cmd.query.header.id).isSome = true)) := by
  cases sendOk
  · exact ⟨by simpa [reactorSubmitStep] using h, by intro hc; cases hc⟩
  · refine ⟨?_, fun _ => ⟨?_, ?_⟩⟩
    · simpa [reactorSubmitStep, hmInsert] using
        keys_alistModify_nodup cmd.query.header.id cmd (fun _ => cmd) registry h
    · simpa [reactorSubmitStep] using
        alistGet_hmInsert_self registry cmd.query.header.id cmd
    · simp [reactorSubmitStep]

/-- Witness for the amended C7 at a concrete registry with a colliding
id. -/
theorem C7_registry_unique_by_overwrite_witness :
    (([(5, ({ query := c2Query, peer_addr := 0 } : ReactorQuery))].map
        (fun e => e.1)).Nodup)
    ∧ ((reactorSubmitStep [(5, { query := c2Query, peer_addr := 0 })]
          { query := { c2Query with header := { c2Query.header with id := 5 } },
            peer_addr := 1 } true).1.map (fun e => e.1)).Nodup :=
  ⟨by decide,
   (C7_registry_unique_by_overwrite
      [(5, { query := c2Query, peer_addr := 0 })]
      { query := { c2Query with header := { c2Query.header with id := 5 } },
        peer_addr := 1 }
      true (by decide)).1⟩

/-! ## Resolver (`src/resolver.rs`, `src/resolver/zone.rs`, `src/main.rs`) -/

/-- parent_zone from `zone.rs`: panic when the zone has no dot, `"."`
when the first dot is the last character, otherwise everything after the
first dot.  (Rust byte indices agree with char indices on ASCII names.) -/
def parent_zone (zone : String) : PanicOr String :=
  match zone.data.findIdx? (fun c => c = '.') with
  | none => .panicked "zone does not have a dot"
  | some first_dot_index =>
    if first_dot_index = zone.data.length - 1 then .ok "."
    else .ok ⟨zone.data.drop (first_dot_index + 1)⟩

/-- Resolver::build_query from `resolver.rs`, with the `random::<u16>()`
id passed explicitly. -/
def build_query (id : Nat) (qname : String) (qtype : QType) : DNSQuery :=
  { header := { id := id, op_code := .Query, is_query := true,
                is_truncated := false, is_authoritative_answer := false,
                is_recursion_available := false, is_recursion_desired := true,
                response_code := .NoError, questions_count := 1,
                answers_count := 0, ns_rr_count := 0, additional_rr_count := 0 }
    questions := [{ qname := qname, qtype := qtype, qclass := .IN }]
    additionals := [] }

/-- The delegation-cycle test of Resolver::fetch_name_servers
(`resolver.rs` lines 172-182): some parent NS record names the queried
domain itself, with or without the NS value's trailing dot. -/
def nsCycleCheck (parent_ns_records : List ResourceRecord) (domain : String) : Bool :=
  parent_ns_records.any (fun rr =>
    match rr.rtype with
    | .NS ns => if ns = domain ∨ ns ++ "." = domain then true else false
    | _ => false)

/-- Resolver::fetch_name_servers from `resolver.rs`.  The recursive
`resolve` of the parent NS query and the `resolve_from_authority` call
are oracles (`parentResolve`, `rfa`); the two `random::<u16>()` ids are
`parent_id` and `ns_id`.  The result pairs the source's
`Result<(RRSet, bool)>` with a flag recording whether `rfa` was invoked
(whether an NS query was issued against the parent's servers). -/
def fetch_name_servers (now : Nat) (store : Store)
    (parentResolve : DNSQuery → Except FetchError DNSQueryResponse)
    (rfa : DNSQuery → List ResourceRecord → Except FetchError DNSQueryResponse)
    (parent_id ns_id : Nat) (domain : String) :
    PanicOr ((Except FetchError (List ResourceRecord × Bool)) × Bool) :=
  match cacheGet now store domain QType.NS with
  | some name_servers => .ok (.ok (name_servers, false), false)
  | none =>
    match parent_zone domain with
    | .panicked msg => .panicked msg
    | .ok pz =>
      let parent_ns_query := build_query parent_id pz QType.NS
      match parentResolve parent_ns_query with
      | .error e => .ok (.error e, false)
      | .ok parent_ns_query_response =>
        let parent_ns_records :=
          if parent_ns_query_response.answers.length > 0 then
            parent_ns_query_response.answers
          else parent_ns_query_response.authority
        if nsCycleCheck parent_ns_records domain then
          .ok (.error (.InfiniteRecursionError
            ("inf recursion error for domain=" ++ domain)), false)
        else
          let ns_query := build_query ns_id domain QType.NS
          match rfa ns_query parent_ns_records with
          | .ok response =>
            if response.answers.length > 0 then
              if response.answers.all (fun rr => rr.rtype.to_qtype == QType.NS) then
                .ok (.ok (response.answers, false), true)
              else .ok (.ok (parent_ns_records, true), true)
            else if response.authority.all (fun rr => rr.rtype.to_qtype == QType.NS) then
              .ok (.ok (response.authority, false), true)
            else .ok (.ok (parent_ns_records, true), true)
          | .error err => .ok (.error err, true)

/-- The response-dispatch arm of the writer task in `main.rs` (lines
236-265): `Ok` and `QueryError` responses are serialized and sent back to
the peer (`some response`); `NetworkError`, `InfiniteRecursionError` and
`NoIPError` only log and bump the failure counter (`none`: no reply). -/
def write_handler_action (result : Except FetchError DNSQueryResponse) :
    Option DNSQueryResponse :=
  match result with
  | .ok response => some response
  | .error (.QueryError response) => some response
  | .error (.NetworkError _) => none
  | .error (.InfiniteRecursionError _) => none
  | .error (.NoIPError _) => none

/-- Claim C8: when some NS name in the parent-provided delegation set
equals the queried domain (with or without the NS value's trailing dot),
`fetch_name_servers` fails with `InfiniteRecursionError` without invoking
`resolve_from_authority` (no NS query reaches the parent's servers), and
the writer task sends no reply for that error. -/
theorem C8_cycle_detected (now : Nat) (store : Store)
    (parentResolve : DNSQuery → Except FetchError DNSQueryResponse)
    (rfa : DNSQuery → List ResourceRecord → Except FetchError DNSQueryResponse)
    (parent_id ns_id : Nat) (domain : String) (pz : String)
    (presp : DNSQueryResponse)
    (hmiss : cacheGet now store domain QType.NS = none)
    (hpz : parent_zone domain = .ok pz)
    (hpar : parentResolve (build_query parent_id pz QType.NS) = .ok presp)
    (hcycle : nsCycleCheck
        (if presp.answers.length > 0 then presp.answers else presp.authority)
        domain = true) :
    fetch_name_servers now store parentResolve rfa parent_id ns_id domain
      = .ok (.error (.InfiniteRecursionError
          ("inf recursion error for domain=" ++ domain)), false)
    ∧ write_handler_action (.error (.InfiniteRecursionError
        ("inf recursion error for domain=" ++ domain))) = none := by
  constructor
  · simp only [fetch_name_servers, hmiss, hpz, hpar, hcycle, if_true]
  · rfl

/-- Parent delegation used for the C8 witness: the only NS record for
`bbc.com.` names `bbc.com` itself (scenario S4 flavour). -/
def c8Presp : DNSQueryResponse :=
  { query := build_query 1 "com." QType.NS
    answers := [{ name := "bbc.com.", rtype := .NS "bbc.com", rclass := .IN,
                  ttl := 300, rd_length := 9 }]
    authority := []
    additional := [] }

/-- Witness for C8 on the concrete `bbc.com.` cycle. -/
theorem C8_cycle_detected_witness :
    (cacheGet 0 ([] : Store) "bbc.com." QType.NS = none
      ∧ parent_zone "bbc.com." = .ok "com."
      ∧ nsCycleCheck
          (if c8Presp.answers.length > 0 then c8Presp.answers else c8Presp.authority)
          "bbc.com." = true)
    ∧ fetch_name_servers 0 ([] : Store) (fun _ => .ok c8Presp)
        (fun _ _ => .error (.NoIPError "unused")) 2 3 "bbc.com."
        = .ok (.error (.InfiniteRecursionError
            ("inf recursion error for domain=" ++ "bbc.com.")), false)
    ∧ write_handler_action (.error (.InfiniteRecursionError
        ("inf recursion error for domain=" ++ "bbc.com."))) = none :=
  ⟨⟨by decide, by decide, by decide⟩,
   (C8_cycle_detected 0 ([] : Store) (fun _ => .ok c8Presp)
      (fun _ _ => .error (.NoIPError "unused")) 2 3 "bbc.com." "com." c8Presp
      (by decide) (by decide) (by decide) (by decide)).1,
   (C8_cycle_detected 0 ([] : Store) (fun _ => .ok c8Presp)
      (fun _ _ => .error (.NoIPError "unused")) 2 3 "bbc.com." "com." c8Presp
      (by decide) (by decide) (by decide) (by decide)).2⟩

/-- Outcome a single reactor round-trip can have from the resolver's
view in Resolver::request: the mpsc send to the reactor fails (logged,
next ip), the oneshot receive fails (logged, next ip), or a result is
delivered on the oneshot. -/
inductive ReactorOutcome where
  | channelSendErr
  | oneshotRecvErr
  | delivered (result : Except FetchError DNSQueryResponse)

/-- Resolver::update_cache from `resolver.rs`: insert every record of
the answer, authority and additional sections. -/
def update_cache (now : Nat) (store : Store) (response : DNSQueryResponse) : Store :=
  (response.answers ++ (response.authority ++ response.additional)).foldl
    (insert2 now) store

/-- Loop body of Resolver::request over the candidate ip records.  The
`reactor` oracle maps each A/AAAA record to the outcome of its
submit-and-await round trip; `panicMsg` is the message of the `panic!`
that the source reaches when the loop exhausts all ips. -/
def requestLoop (now : Nat) (reactor : ResourceRecord → ReactorOutcome)
    (store : Store) (panicMsg : String) :
    List ResourceRecord → PanicOr (Except FetchError (DNSQueryResponse × Store))
  | [] => .panicked panicMsg
  | rr :: rest =>
    match rr.rtype with
    | .A _ =>
      match reactor rr with
      | .channelSendErr => requestLoop now reactor store panicMsg rest
      | .oneshotRecvErr => requestLoop now reactor store panicMsg rest
      | .delivered (.ok response) =>
        .ok (.ok (response, update_cache now store response))
      | .delivered (.error (.NetworkError _)) =>
        requestLoop now reactor store panicMsg rest
      | .delivered (.error (.QueryError e)) => .ok (.error (.QueryError e))
      | .delivered (.error (.InfiniteRecursionError e)) =>
        .ok (.error (.InfiniteRecursionError e))
      | .delivered (.error (.NoIPError e)) => .ok (.error (.NoIPError e))
    | .AAAA _ =>
      match reactor rr with
      | .channelSendErr => requestLoop now reactor store panicMsg rest
      | .oneshotRecvErr => requestLoop now reactor store panicMsg rest
      | .delivered (.ok response) =>
        .ok (.ok (response, update_cache now store response))
      | .delivered (.error (.NetworkError _)) =>
        requestLoop now reactor store panicMsg rest
      | .delivered (.error (.QueryError e)) => .ok (.error (.QueryError e))
      | .delivered (.error (.InfiniteRecursionError e)) =>
        .ok (.error (.InfiniteRecursionError e))
      | .delivered (.error (.NoIPError e)) => .ok (.error (.NoIPError e))
    | _ => .panicked "This should not happen."

/-- Resolver::request from `resolver.rs`: walk the ip records; on a
NetworkError delivery (or a channel failure) try the next ip; on `Ok`
update the cache with all three sections and return; on any other error
return it; when the list is exhausted, `panic!`.  The query only selects
the peer; the store is threaded for the cache update. -/
def Resolver.request (now : Nat) (reactor : ResourceRecord → ReactorOutcome)
    (query : DNSQuery) (ip_records : List ResourceRecord) (store : Store) :
    PanicOr (Except FetchError (DNSQueryResponse × Store)) :=
  requestLoop now reactor store
    ("request: could not send request to " ++ toString ip_records.length ++ " ips")
    ip_records

/-- Pass 2 of Resolver::resolve_from_authority: for each NS record,
recursively resolve the (dotted) name-server name with qtype A through
the `resolveA` oracle — which returns the success flag of that resolve
together with the possibly grown cache — then retry `request` against
the freshly cached A records.  Falls through to `NoIPError`. -/
def rfaPass2 (now : Nat) (reactor : ResourceRecord → ReactorOutcome)
    (resolveA : String → Store → Bool × Store) (query : DNSQuery) :
    List ResourceRecord → Store →
      PanicOr (Except FetchError (DNSQueryResponse × Store))
  | [], _ =>
    .ok (.error (.NoIPError
      (toString query.header.id ++ " no ip for name servers in cache")))
  | rr :: rest, store =>
    match rr.rtype with
    | .NS name_server =>
      let dotted_name_server := if !(endsWithChar name_server '.') then
          name_server ++ "." else name_server
      match resolveA dotted_name_server store with
      | (true, store2) =>
        match cacheGet now store2 dotted_name_server QType.A with
        | some ip_records =>
          match Resolver.request now reactor query ip_records store2 with
          | .panicked m => .panicked m
          | .ok (.ok rs) => .ok (.ok rs)
          | .ok (.error (.QueryError e)) => .ok (.error (.QueryError e))
          | .ok (.error (.NetworkError _)) =>
            rfaPass2 now reactor resolveA query rest store2
          | .ok (.error (.InfiniteRecursionError e)) =>
            .ok (.error (.InfiniteRecursionError e))
          | .ok (.error (.NoIPError e)) => .ok (.error (.NoIPError e))
        | none => rfaPass2 now reactor resolveA query rest store2
      | (false, store2) => rfaPass2 now reactor resolveA query rest store2
    | _ => rfaPass2 now reactor resolveA query rest store
  termination_by l _ => l.length

/-- Pass 1 of Resolver::resolve_from_authority: for each NS record whose
A (or, failing that, AAAA) records are already cached, attempt
`request`; a NetworkError result moves on to the next NS, any other
error returns immediately.  When the pass exhausts the list it runs
pass 2 over the full NS set. -/
def rfaPass1 (now : Nat) (reactor : ResourceRecord → ReactorOutcome)
    (resolveA : String → Store → Bool × Store) (query : DNSQuery)
    (ns_records : List ResourceRecord) (store : Store) :
    List ResourceRecord → PanicOr (Except FetchError (DNSQueryResponse × Store))
  | [] => rfaPass2 now reactor resolveA query ns_records store
  | rr :: rest =>
    match rr.rtype with
    | .NS name_server =>
      match cacheGet now store name_server QType.A with
      | some list_of_ipv4s =>
        match Resolver.request now reactor query list_of_ipv4s store with
        | .panicked m => .panicked m
        | .ok (.ok rs) => .ok (.ok rs)
        | .ok (.error (.QueryError e)) => .ok (.error (.QueryError e))
        | .ok (.error (.NetworkError _)) =>
          rfaPass1 now reactor resolveA query ns_records store rest
        | .ok (.error (.InfiniteRecursionError e)) =>
          .ok (.error (.InfiniteRecursionError e))
        | .ok (.error (.NoIPError e)) => .ok (.error (.NoIPError e))
      | none =>
        match cacheGet now store name_server QType.AAAA with
        | some list_of_ipv6s =>
          match Resolver.request now reactor query list_of_ipv6s store with
          | .panicked m => .panicked m
          | .ok (.ok rs) => .ok (.ok rs)
          | .ok (.error (.QueryError e)) => .ok (.error (.QueryError e))
          | .ok (.error (.NetworkError _)) =>
            rfaPass1 now reactor resolveA query ns_records store rest
          | .ok (.error (.InfiniteRecursionError e)) =>
            .ok (.error (.InfiniteRecursionError e))
          | .ok (.error (.NoIPError e)) => .ok (.error (.NoIPError e))
        | none => rfaPass1 now reactor resolveA query ns_records store rest
    | _ => rfaPass1 now reactor resolveA query ns_records store rest

/-- Resolver::resolve_from_authority from `resolver.rs`: pass 1 over the
NS records with cached addresses, then pass 2 resolving the remaining NS
names. -/
def resolve_from_authority (now : Nat)
    (reactor : ResourceRecord → ReactorOutcome)
    (resolveA : String → Store → Bool × Store) (query : DNSQuery)
    (ns_records : List ResourceRecord) (store : Store) :
    PanicOr (Except FetchError (DNSQueryResponse × Store)) :=
  rfaPass1 now reactor resolveA query ns_records store ns_records

/-- Errors that Resolver::request and resolve_from_authority return
immediately instead of trying the next candidate. -/
def isImmediateErr : FetchError → Bool
  | .NetworkError _ => false
  | .QueryError _ => true
  | .InfiniteRecursionError _ => true
  | .NoIPError _ => true

/-- A reactor outcome on which the request loop moves to the next ip:
channel failures and `NetworkError` deliveries. -/
def outcomeContinues : ReactorOutcome → Prop
  | .channelSendErr => True
  | .oneshotRecvErr => True
  | .delivered (.error (.NetworkError _)) => True
  | _ => False

/-- When every candidate ip is an address record whose round trip fails
with a NetworkError (or channel error), the request loop runs off the
end of the list and panics. -/
theorem requestLoop_panics (now : Nat) (reactor : ResourceRecord → ReactorOutcome)
    (store : Store) (msg : String) (ips : List ResourceRecord)
    (h : ∀ rr ∈ ips, ((∃ i, rr.rtype = .A i) ∨ (∃ i, rr.rtype = .AAAA i))
      ∧ outcomeContinues (reactor rr)) :
    requestLoop now reactor store msg ips = .panicked msg := by
  induction ips with
  | nil => rfl
  | cons rr rest ih =>
    have hrr := h rr (by simp)
    have hrest := ih (fun r hr => h r (by simp [hr]))
    rcases hrr.1 with ⟨i, hi⟩ | ⟨i, hi⟩ <;>
      · simp only [requestLoop, hi]
        rcases ho : reactor rr with _ | _ | res
        · exact hrest
        · exact hrest
        · rcases res with e | r
          · cases e with
            | NetworkError m => exact hrest
            | QueryError r2 => rw [ho] at hrr
                               exact absurd hrr.2 (by simp [outcomeContinues])
            | InfiniteRecursionError m => rw [ho] at hrr
                                          exact absurd hrr.2 (by simp [outcomeContinues])
            | NoIPError m => rw [ho] at hrr
                             exact absurd hrr.2 (by simp [outcomeContinues])
          · rw [ho] at hrr
            exact absurd hrr.2 (by simp [outcomeContinues])

/-- When the recursive A-resolution of every name server fails (without
touching the cache), pass 2 falls through to `NoIPError`. -/
theorem rfaPass2_noip (now : Nat) (reactor : ResourceRecord → ReactorOutcome)
    (resolveA : String → Store → Bool × Store) (query : DNSQuery)
    (hres : ∀ dn s, resolveA dn s = (false, s)) :
    ∀ (l : List ResourceRecord) (store : Store),
      rfaPass2 now reactor resolveA query l store
        = .ok (.error (.NoIPError
            (toString query.header.id ++ " no ip for name servers in cache"))) := by
  intro l
  induction l with
  | nil => intro store; simp only [rfaPass2]
  | cons rr rest ih =>
    intro store
    simp only [rfaPass2]
    cases hty : rr.rtype <;> try exact ih _
    simp only [hres]
    exact ih _

/-- When no name server has cached A or AAAA records, pass 1 skips every
candidate and falls through to pass 2. -/
theorem rfaPass1_skips (now : Nat) (reactor : ResourceRecord → ReactorOutcome)
    (resolveA : String → Store → Bool × Store) (query : DNSQuery)
    (ns_records : List ResourceRecord) (store : Store) :
    ∀ (l : List ResourceRecord),
      (∀ rr ∈ l, ∀ n, rr.rtype = .NS n →
        cacheGet now store n QType.A = none
          ∧ cacheGet now store n QType.AAAA = none) →
      rfaPass1 now reactor resolveA query ns_records store l
        = rfaPass2 now reactor resolveA query ns_records store := by
  intro l
  induction l with
  | nil => intro _; rfl
  | cons rr rest ih =>
    intro h
    have hrest := ih (fun r hr => h r (by simp [hr]))
    simp only [rfaPass1]
    cases hty : rr.rtype <;> try exact hrest
    rcases h rr (by simp) _ hty with ⟨hA, hAAAA⟩
    simp only [hA, hAAAA]
    exact hrest

/-- Claim C10, amended error policy of resolve_from_authority.
(1) When every ip of an attempted name server round-trips with
`NetworkError` (or a channel failure), `request` does not return
`NetworkError` to its caller: it exhausts the ip list and panics, so the
`NetworkError => continue` arm of resolve_from_authority is unreachable
and the process aborts instead of moving to the next NS.
(2) `QueryError`, `InfiniteRecursionError` and `NoIPError` outcomes of an
attempt are returned immediately.
(3) When no NS has cached addresses and none can be resolved, the call
fails with `NoIPError`. -/
theorem C10_error_policy :
    (∀ (now : Nat) (reactor : ResourceRecord → ReactorOutcome) (query : DNSQuery)
        (ips : List ResourceRecord) (store : Store),
      (∀ rr ∈ ips, ((∃ i, rr.rtype = .A i) ∨ (∃ i, rr.rtype = .AAAA i))
        ∧ outcomeContinues (reactor rr)) →
      Resolver.request now reactor query ips store
        = .panicked ("request: could not send request to "
            ++ toString ips.length ++ " ips"))
    ∧ (∀ (now : Nat) (reactor : ResourceRecord → ReactorOutcome)
        (resolveA : String → Store → Bool × Store) (query : DNSQuery)
        (n : String) (rest : List ResourceRecord) (store : Store)
        (e : FetchError) (ips : List ResourceRecord) (nsr : ResourceRecord),
        nsr.rtype = .NS n →
        cacheGet now store n QType.A = some ips →
        Resolver.request now reactor query ips store = .ok (.error e) →
        isImmediateErr e = true →
        resolve_from_authority now reactor resolveA query (nsr :: rest) store
          = .ok (.error e))
    ∧ (∀ (now : Nat) (reactor : ResourceRecord → ReactorOutcome)
        (resolveA : String → Store → Bool × Store) (query : DNSQuery)
        (ns_records : List ResourceRecord) (store : Store),
        (∀ rr ∈ ns_records, ∀ n, rr.rtype = .NS n →
          cacheGet now store n QType.A = none
            ∧ cacheGet now store n QType.AAAA = none) →
        (∀ dn s, resolveA dn s = (false, s)) →
        resolve_from_authority now reactor resolveA query ns_records store
          = .ok (.error (.NoIPError
              (toString query.header.id ++ " no ip for name servers in cache")))) := by
  refine ⟨?_, ?_, ?_⟩
  · intro now reactor query ips store h
    exact requestLoop_panics now reactor store _ ips h
  · intro now reactor resolveA query n rest store e ips nsr hns hget hreq himm
    simp only [resolve_from_authority, rfaPass1, hns, hget, hreq]
    cases e with
    | NetworkError m => simp [isImmediateErr] at himm
    | QueryError r => rfl
    | InfiniteRecursionError m => rfl
    | NoIPError m => rfl
  · intro now reactor resolveA query ns_records store hmiss hres
    rw [resolve_from_authority,
      rfaPass1_skips now reactor resolveA query ns_records store ns_records hmiss]
    exact rfaPass2_noip now reactor resolveA query hres ns_records store

/-- Cache state for the C10 theorems: the name server `ns1.example.` has
one cached A record. -/
def c10Store : Store :=
  [("ns1.example.",
    [(QType.A,
      [{ rr := { name := "ns1.example.", rtype := .A ⟨1, 2, 3, 4⟩,
                 rclass := .IN, ttl := 300, rd_length := 4 },
         last_refreshed_at := 0 }])])]

/-- NS record naming that server. -/
def c10NsRecord : ResourceRecord :=
  { name := "example.", rtype := .NS "ns1.example.", rclass := .IN,
    ttl := 300, rd_length := 13 }

set_option synthInstance.maxSize 2000 in
/-- Claim C10 counterexample: with the first name server's A record in
cache and the reactor failing every round trip with `NetworkError`, the
resolver does not move on to the next NS — `request` exhausts its single
ip and panics, aborting the process. -/
theorem C10_networkerror_aborts :
    resolve_from_authority 0
        (fun _ => .delivered (.error (.NetworkError "connection refused")))
        (fun _ s => (false, s))
        (build_query 9 "www.example." QType.A)
        [c10NsRecord] c10Store
      = .panicked "request: could not send request to 1 ips" := by
  decide

/-- Witness for the amended C10, part (1), at the concrete single-ip
list. -/
theorem C10_error_policy_witness :
    Resolver.request 0
        (fun _ => .delivered (.error (.NetworkError "connection refused")))
        (build_query 9 "www.example." QType.A)
        [{ name := "ns1.example.", rtype := .A ⟨1, 2, 3, 4⟩, rclass := .IN,
           ttl := 300, rd_length := 4 }] c10Store
      = .panicked ("request: could not send request to "
          ++ toString ([{ name := "ns1.example.", rtype := .A ⟨1, 2, 3, 4⟩,
                          rclass := .IN, ttl := 300,
                          rd_length := 4 }] : List ResourceRecord).length
          ++ " ips") :=
  C10_error_policy.1 0
    (fun _ => .delivered (.error (.NetworkError "connection refused")))
    (build_query 9 "www.example." QType.A)
    [{ name := "ns1.example.", rtype := .A ⟨1, 2, 3, 4⟩, rclass := .IN,
       ttl := 300, rd_length := 4 }] c10Store
    (by intro rr hr
        simp only [List.mem_singleton] at hr
        subst hr
        exact ⟨Or.inl ⟨⟨1, 2, 3, 4⟩, rfl⟩, by simp [outcomeContinues]⟩)

/-! ## CNAME chasing in Resolver::resolve (claim C3) -/

/-- DNSQueryResponse::contains_cnames from `models.rs`: the CNAME-typed
answer records, or `none` when there are none. -/
def DNSQueryResponse.contains_cnames (resp : DNSQueryResponse) :
    Option (List ResourceRecord) :=
  let cname_rrs := resp.answers.filter (fun rr => rr.rtype.to_qtype == QType.CNAME)
  if cname_rrs.length > 0 then some cname_rrs else none

/-- One iteration of the CNAME loop in Resolver::resolve: a CNAME answer
gets its target dotted and recursively resolved as type A through
`chaseOracle` (which returns the answers of that resolve); an error is
only logged; a non-CNAME record in the list would hit the source's
`panic!("this should never happen")`. -/
def chaseFoldStep (chaseOracle : String → Except FetchError (List ResourceRecord))
    (acc : PanicOr (List ResourceRecord)) (rr : ResourceRecord) :
    PanicOr (List ResourceRecord) :=
  match acc with
  | .panicked m => .panicked m
  | .ok cnames =>
    match rr.rtype with
    | .CNAME cname =>
      let cname := if !(endsWithChar cname '.') then cname ++ "." else cname
      match chaseOracle cname with
      | .ok answers => .ok (cnames ++ answers)
      | .error _ => .ok cnames
    | _ => .panicked "this should never happen"

/-- The CNAME-chasing tail of Resolver::resolve (`resolver.rs` lines
63-93): when the answer of resolve_from_name_servers contains CNAME
records, chase each one, bump the header's ancount (a u16) by the number
of appended records and append them to the answer section. -/
def resolveChaseCnames
    (chaseOracle : String → Except FetchError (List ResourceRecord))
    (result : DNSQueryResponse) : PanicOr DNSQueryResponse :=
  match result.contains_cnames with
  | some cname_records =>
    match cname_records.foldl (chaseFoldStep chaseOracle) (.ok []) with
    | .panicked m => .panicked m
    | .ok cnames =>
      .ok { result with
              query := { result.query with header := { result.query.header with
                answers_count :=
                  (result.query.header.answers_count + cnames.length) % 2 ^ 16 } }
              answers := result.answers ++ cnames }
  | none => .ok result

/-- Resolver::resolve from `resolver.rs` as one step: read the first
question (panics when absent), try the cache (resolve_from_cache), else
take the resolve_from_name_servers outcome from the `rfns` oracle and
chase CNAMEs in its answer. -/
def resolveStep (now : Nat) (store : Store)
    (rfns : Except FetchError DNSQueryResponse)
    (chaseOracle : String → Except FetchError (List ResourceRecord))
    (query : DNSQuery) : PanicOr (Except FetchError DNSQueryResponse) :=
  match query.questions with
  | [] => .panicked "index out of bounds"
  | q0 :: _ =>
    match cacheGet now store q0.qname q0.qtype with
    | some answers =>
      .ok (.ok { query := { query with header := { query.header with
                   is_query := false
                   answers_count := answers.length % 2 ^ 16
                   is_authoritative_answer := false } }
                 answers := answers
                 authority := []
                 additional := [] })
    | none =>
      match rfns with
      | .error e => .ok (.error e)
      | .ok result =>
        match resolveChaseCnames chaseOracle result with
        | .panicked m => .panicked m
        | .ok final => .ok (.ok final)

/-- The answer qtype tag is CNAME exactly for CNAME-typed records. -/
theorem to_qtype_eq_cname (t : RType) :
    t.to_qtype = QType.CNAME ↔ ∃ c, t = .CNAME c := by
  cases t <;> simp [RType.to_qtype]

/-- The CNAME fold never panics on a list of CNAME records and collects
the oracle's answers; a never-succeeding oracle contributes nothing. -/
theorem chaseFold_ok (chaseOracle : String → Except FetchError (List ResourceRecord))
    (l : List ResourceRecord) (h : ∀ rr ∈ l, rr.rtype.to_qtype = QType.CNAME) :
    ∀ acc, ∃ cs, l.foldl (chaseFoldStep chaseOracle) (.ok acc) = .ok (acc ++ cs)
      ∧ ((∀ s a, chaseOracle s ≠ .ok a) → cs = []) := by
  induction l with
  | nil => exact fun acc => ⟨[], by simp, fun _ => rfl⟩
  | cons rr rest ih =>
    intro acc
    obtain ⟨c, hc⟩ := (to_qtype_eq_cname rr.rtype).mp (h rr (by simp))
    have hrest := ih (fun r hr => h r (by simp [hr]))
    rcases ho : chaseOracle (if !(endsWithChar c '.') then c ++ "." else c)
        with e | answers
    · obtain ⟨cs, hfold, hsil⟩ := hrest acc
      refine ⟨cs, ?_, hsil⟩
      simp only [List.foldl_cons, chaseFoldStep, hc, ho]
      exact hfold
    · obtain ⟨cs, hfold, _⟩ := hrest (acc ++ answers)
      refine ⟨answers ++ cs, ?_, fun hnone => absurd ho (hnone _ _)⟩
      simp only [List.foldl_cons, chaseFoldStep, hc, ho]
      rw [hfold, List.append_assoc]

/-- Claim C3, amended: on a cache miss, CNAME chasing happens exactly
when the answer section of the resolve_from_name_servers result contains
CNAME records — regardless of the query type, including qtype CNAME.
Each CNAME target is resolved as type A, the results are appended to the
answer section, ancount grows by the number of appended records (as a
u16), chasing errors are tolerated, and the step never panics. -/
theorem C3_chase_characterization (now : Nat) (store : Store)
    (query : DNSQuery) (q0 : DNSQuestionQuery) (rest : List DNSQuestionQuery)
    (result : DNSQueryResponse)
    (chaseOracle : String → Except FetchError (List ResourceRecord))
    (hq : query.questions = q0 :: rest)
    (hmiss : cacheGet now store q0.qname q0.qtype = none)
    (hcount : result.query.header.answers_count < 2 ^ 16) :
    ∃ final, resolveStep now store (.ok result) chaseOracle query = .ok (.ok final)
      ∧ ∃ chased, final.answers = result.answers ++ chased
          ∧ final.query.header.answers_count
              = (result.query.header.answers_count + chased.length) % 2 ^ 16
          ∧ ((∀ rr ∈ result.answers, rr.rtype.to_qtype ≠ QType.CNAME) →
              final = result)
          ∧ (chased ≠ [] → ∃ rr ∈ result.answers, rr.rtype.to_qtype = QType.CNAME)
          ∧ ((∀ s a, chaseOracle s ≠ .ok a) → chased = []) := by
  rcases hc : result.contains_cnames with _ | l
  · refine ⟨result, ?_, [], by simp, ?_, fun _ => rfl, by simp, fun _ => rfl⟩
    · simp only [resolveStep, hq, hmiss, resolveChaseCnames, hc]
    · simpa using (Nat.mod_eq_of_lt hcount).symm
  · have hl : ∀ rr ∈ l, rr.rtype.to_qtype = QType.CNAME := by
      intro rr hr
      have : l = result.answers.filter
          (fun rr => rr.rtype.to_qtype == QType.CNAME) := by
        simp only [DNSQueryResponse.contains_cnames] at hc
        by_cases hlen : (result.answers.filter
            (fun rr => rr.rtype.to_qtype == QType.CNAME)).length > 0
        · exact Eq.symm (by simpa [hlen] using hc)
        · simp [hlen] at hc
      rw [this] at hr
      simpa using (List.of_mem_filter hr)
    have hlsub : ∀ rr ∈ l, rr ∈ result.answers := by
      intro rr hr
      have : l = result.answers.filter
          (fun rr => rr.rtype.to_qtype == QType.CNAME) := by
        simp only [DNSQueryResponse.contains_cnames] at hc
        by_cases hlen : (result.answers.filter
            (fun rr => rr.rtype.to_qtype == QType.CNAME)).length > 0
        · exact Eq.symm (by simpa [hlen] using hc)
        · simp [hlen] at hc
      rw [this] at hr
      exact List.mem_of_mem_filter hr
    have hne : l ≠ [] := by
      intro hnil
      simp only [DNSQueryResponse.contains_cnames] at hc
      by_cases hlen : (result.answers.filter
          (fun rr => rr.rtype.to_qtype == QType.CNAME)).length > 0
      · have := hc
        simp only [hlen, if_pos] at this
        rw [hnil] at this
        have h0 := Option.some.inj this
        rw [h0] at hlen
        simp at hlen
      · simp [hlen] at hc
  -- chased answers from the fold
    obtain ⟨cs, hfold, hsil⟩ := chaseFold_ok chaseOracle l hl []
    refine ⟨{ result with
                query := { result.query with header := { result.query.header with
                  answers_count :=
                    (result.query.header.answers_count + cs.length) % 2 ^ 16 } }
                answers := result.answers ++ cs }, ?_, cs, rfl, rfl, ?_, ?_, hsil⟩
    · simp only [resolveStep, hq, hmiss, resolveChaseCnames, hc]
      rw [show (PanicOr.ok [] : PanicOr (List ResourceRecord)) = .ok ([] : List ResourceRecord) from rfl] at hfold
      rw [hfold]
      simp
    · intro hnone
      obtain ⟨rr, hrl⟩ := List.exists_mem_of_ne_nil l hne
      exact absurd (hl rr hrl) (hnone rr (hlsub rr hrl))
    · intro _
      obtain ⟨rr, hrl⟩ := List.exists_mem_of_ne_nil l hne
      exact ⟨rr, hlsub rr hrl, hl rr hrl⟩

/-- CNAME answer record used in the C3 theorems. -/
def c3CnameRecord : ResourceRecord :=
  { name := "www.example.org.", rtype := .CNAME "example.org.", rclass := .IN,
    ttl := 300, rd_length := 13 }

/-- A record produced by chasing the CNAME target. -/
def c3ARecord : ResourceRecord :=
  { name := "example.org.", rtype := .A ⟨93, 184, 216, 34⟩, rclass := .IN,
    ttl := 300, rd_length := 4 }

/-- Query with qtype CNAME for the C3 counterexample. -/
def c3Query : DNSQuery := build_query 11 "www.example.org." QType.CNAME

/-- resolve_from_name_servers outcome whose answer holds one CNAME. -/
def c3Result : DNSQueryResponse :=
  { query := c3Query, answers := [c3CnameRecord], authority := [],
    additional := [] }

/-- Chasing oracle: resolving any name as type A yields the A record. -/
def c3Oracle : String → Except FetchError (List ResourceRecord) :=
  fun _ => .ok [c3ARecord]

/-- Claim C3 counterexample: `resolve` has no `T ≠ CNAME` guard — with
qtype CNAME and a CNAME in the returned answer it still chases, appending
the chased A record and bumping ancount, where the claim demands no
chasing at all. -/
theorem C3_chases_for_cname_qtype :
    c3Query.questions.map (fun q => q.qtype) = [QType.CNAME]
    ∧ resolveStep 0 ([] : Store) (.ok c3Result) c3Oracle c3Query
      = .ok (.ok { c3Result with
          query := { c3Result.query with header :=
            { c3Result.query.header with answers_count := 1 } }
          answers := [c3CnameRecord, c3ARecord] }) := by
  constructor
  · decide
  · decide

/-- Witness for the amended C3 at the concrete CNAME-qtype inputs. -/
theorem C3_chase_characterization_witness :
    ∃ final, resolveStep 0 ([] : Store) (.ok c3Result) c3Oracle c3Query
        = .ok (.ok final)
      ∧ ∃ chased, final.answers = c3Result.answers ++ chased
          ∧ final.query.header.answers_count
              = (c3Result.query.header.answers_count + chased.length) % 2 ^ 16
          ∧ ((∀ rr ∈ c3Result.answers, rr.rtype.to_qtype ≠ QType.CNAME) →
              final = c3Result)
          ∧ (chased ≠ [] →
              ∃ rr ∈ c3Result.answers, rr.rtype.to_qtype = QType.CNAME)
          ∧ ((∀ s a, c3Oracle s ≠ .ok a) → chased = []) :=
  C3_chase_characterization 0 ([] : Store) c3Query
    { qname := "www.example.org.", qtype := QType.CNAME, qclass := .IN } []
    c3Result c3Oracle (by decide) (by decide) (by decide)

/-! ## Wire codec (`src/business/models.rs`, claims C5 and C6) -/

/-- Wire buffers are byte lists; each entry is an octet value. -/
abbrev Bytes := List Nat

/-- Read one byte (`buf[i]`); `none` models the Rust index panic. -/
def byteAt (buf : Bytes) (i : Nat) : Option Nat :=
  (buf.drop i).head?

/-- convert_slice_to_u16 from `models.rs` applied at an offset:
big-endian pair; `none` models the slice panic. -/
def readU16 (buf : Bytes) (i : Nat) : Option Nat :=
  match buf.drop i with
  | a :: b :: _ => some (a * 256 + b)
  | _ => none

/-- convert_slice_to_u32 from `models.rs` applied at an offset. -/
def readU32 (buf : Bytes) (i : Nat) : Option Nat :=
  match buf.drop i with
  | a :: b :: c :: d :: _ => some (((a * 256 + b) * 256 + c) * 256 + d)
  | _ => none

/-- Slice `&buf[i..i+n]`; `none` models the out-of-range panic. -/
def readSlice (buf : Bytes) (i n : Nat) : Option Bytes :=
  if i + n ≤ buf.length then some ((buf.drop i).take n) else none

/-- Big-endian emission of a u16, as the two pushes
`(x >> 8) & 0xff`, `x & 0xff` in `models.rs`. -/
def u16Bytes (x : Nat) : Bytes :=
  [(x >>> 8) &&& 255, x &&& 255]

/-- Big-endian emission of a u32 (`transform_u32_to_array_of_u8` and the
ttl pushes in `models.rs`). -/
def u32Bytes (x : Nat) : Bytes :=
  [(x >>> 24) &&& 255, (x >>> 16) &&& 255, (x >>> 8) &&& 255, x &&& 255]

/-- Embedding of `str::from_utf8(..).unwrap()` for the single-byte
(ASCII) code points the claims exercise; a byte ≥ 128 is treated as the
failure case. -/
def bytesToString (bs : Bytes) : Option String :=
  if bs.all (fun b => b < 128) then some ⟨bs.map Char.ofNat⟩ else none

/-- write_labels from `models.rs`: `"."` is the single zero byte; any
other name is split on dots, empty pieces dropped, each remaining label
emitted as its length then its bytes, terminated by a zero byte.  (The
source interleaves decimal length strings with the labels and reparses
the lengths as `u8` — identical to emitting the length byte directly for
labels shorter than 256; longer labels would panic in the reparse.) -/
def write_labels (domain : String) : Bytes :=
  if domain = "." then [0]
  else
    (((splitOnDot domain.data).filter (fun l => 0 < l.length)).flatMap
      (fun l => l.length :: l.map Char.toNat)) ++ [0]

/-- Rust `Vec::join(".")` on the collected label strings. -/
def joinDot : List String → String
  | [] => ""
  | [l] => l
  | l :: rest => l ++ "." ++ joinDot rest

mutual

/-- read_labels from `models.rs`: an immediate zero byte is the root
name; otherwise loop over length-prefixed labels, following compression
pointers recursively; join with dots and append the trailing dot when
the joined form is longer than one byte and lacks it.  `fuel` bounds the
recursion; `none` covers both the source's panics (out-of-range reads,
invalid utf8) and its divergence on pointer loops. -/
def read_labels : Nat → Bytes → Nat → Option (String × Nat)
  | 0, _, _ => none
  | fuel + 1, buf, offset =>
    match byteAt buf offset with
    | none => none
    | some b =>
      if b = 0 then some (".", offset + 1)
      else
        match readLabelsGo fuel buf offset [] with
        | none => none
        | some (labels, index) =>
          let joined_labels := joinDot labels
          let joined_labels :=
            if 1 < joined_labels.length ∧ endsWithChar joined_labels '.' = false
            then joined_labels.push '.' else joined_labels
          some (joined_labels, index + 1)

/-- The label-collecting loop of read_labels. -/
def readLabelsGo : Nat → Bytes → Nat → List String → Option (List String × Nat)
  | 0, _, _, _ => none
  | fuel + 1, buf, index, labels =>
    match byteAt buf index with
    | none => none
    | some octet_length =>
      if octet_length &&& 192 = 192 then
        match readU16 buf index with
        | none => none
        | some two =>
          match read_labels fuel buf (two &&& 16383) with
          | none => none
          | some (labels_from_pointer, _) =>
            some (labels ++ [labels_from_pointer], index + 1)
      else if octet_length = 0 then some (labels, index)
      else
        match readSlice buf (index + 1) octet_length with
        | none => none
        | some label_bytes =>
          match bytesToString label_bytes with
          | none => none
          | some label =>
            readLabelsGo fuel buf (index + octet_length + 1) (labels ++ [label])

end

/-- TXTData::serialize from `models.rs`: the length byte then the text
bytes. -/
def TXTData.serialize (t : TXTData) : Bytes :=
  t.length :: t.data.data.map Char.toNat

/-- SOAData::serialize from `models.rs`: both names then the five
32-bit fields. -/
def SOAData.serialize (soa : SOAData) : Bytes :=
  write_labels soa.mname ++ write_labels soa.rname ++ u32Bytes soa.serial
    ++ u32Bytes soa.refresh_in_secs ++ u32Bytes soa.retry_in_secs
    ++ u32Bytes soa.expire_in_secs ++ u32Bytes soa.minimum

/-- SOAData::deserialize from `models.rs`. -/
def SOAData.deserialize (fuel : Nat) (buf : Bytes) (offset : Nat) :
    Option SOAData :=
  match read_labels fuel buf offset with
  | none => none
  | some (mname, start_of_rname) =>
    match read_labels fuel buf start_of_rname with
    | none => none
    | some (rname, j) =>
      match readU32 buf j, readU32 buf (j + 4), readU32 buf (j + 8),
          readU32 buf (j + 12), readU32 buf (j + 16) with
      | some serial, some refresh, some retry, some expire, some minimum =>
        some { mname := mname, rname := rname, serial := serial,
               refresh_in_secs := refresh, retry_in_secs := retry,
               expire_in_secs := expire, minimum := minimum }
      | _, _, _, _, _ => none

/-- ResourceRecord::serialize from `models.rs`: name, type, class, ttl,
recomputed RDLENGTH, rdata.  PTR, HINFO and MX hit the source's
`panic!`. -/
def ResourceRecord.serialize (rr : ResourceRecord) : PanicOr Bytes :=
  match (match rr.rtype with
    | .A ip => some [ip.o1, ip.o2, ip.o3, ip.o4]
    | .AAAA ip => some (u16Bytes ip.g1 ++ u16Bytes ip.g2 ++ u16Bytes ip.g3
        ++ u16Bytes ip.g4 ++ u16Bytes ip.g5 ++ u16Bytes ip.g6
        ++ u16Bytes ip.g7 ++ u16Bytes ip.g8)
    | .NS ns => some (write_labels ns)
    | .TXT txt_data => some txt_data.serialize
    | .CNAME cname => some (write_labels cname)
    | .SOA soa => some soa.serialize
    | _ => none) with
  | none => .panicked "ResourceRecord:serialize type not supported: "
  | some serialized_rdata =>
    .ok (write_labels rr.name ++ u16Bytes rr.rtype.to_u16
      ++ u16Bytes rr.rclass.to_u16 ++ u32Bytes rr.ttl
      ++ u16Bytes serialized_rdata.length ++ serialized_rdata)

/-- Class::to_class from `models.rs` (`unwrap` panics on other codes). -/
def toClass (code : Nat) : Option RClass :=
  match code with
  | 1 => some .IN
  | 3 => some .CH
  | _ => none

/-- DNSQuery::deserialize_resource_records from `models.rs`: for each
record read the (possibly compressed) name, type, class, ttl and
rdlength, slice the rdata, and build the typed payload; unknown type
codes hit the source's `panic!`, as do all out-of-range reads and
failed unwraps (`.panicked`). -/
def deserialize_resource_records (fuel : Nat) (buf : Bytes) :
    Nat → Nat → PanicOr (List ResourceRecord × Nat)
  | index, 0 => .ok ([], index)
  | index, records_count + 1 =>
    match read_labels fuel buf index with
    | none => .panicked "read_labels: index out of bounds"
    | some (name, updated_index) =>
      match readU16 buf updated_index with
      | none => .panicked "slice index out of range"
      | some type_code =>
        match readU16 buf (updated_index + 2) with
        | none => .panicked "slice index out of range"
        | some class_code =>
          match readU32 buf (updated_index + 4) with
          | none => .panicked "slice index out of range"
          | some ttl =>
            match readU16 buf (updated_index + 8) with
            | none => .panicked "slice index out of range"
            | some rd_length =>
              match readSlice buf (updated_index + 10) rd_length with
              | none => .panicked "slice index out of range"
              | some rd_data =>
                match ((match type_code with
                  | 1 =>
                    match rd_data with
                    | b0 :: b1 :: b2 :: b3 :: _ =>
                      .ok (RType.A ⟨b0, b1, b2, b3⟩)
                    | _ => .panicked "index out of bounds"
                  | 2 =>
                    match read_labels fuel buf (updated_index + 10) with
                    | none => .panicked "read_labels: index out of bounds"
                    | some (ns_dname, _) => .ok (RType.NS ns_dname)
                  | 5 =>
                    match read_labels fuel buf (updated_index + 10) with
                    | none => .panicked "read_labels: index out of bounds"
                    | some (cname, _) => .ok (RType.CNAME cname)
                  | 6 =>
                    match SOAData.deserialize fuel buf (updated_index + 10) with
                    | none => .panicked "slice index out of range"
                    | some data => .ok (RType.SOA data)
                  | 12 =>
                    match read_labels fuel buf (updated_index + 10) with
                    | none => .panicked "read_labels: index out of bounds"
                    | some (ptr_dname, _) => .ok (RType.PTR ptr_dname)
                  | 16 =>
                    match rd_data with
                    | _ :: txt_bytes =>
                      match bytesToString txt_bytes with
                      | none => .panicked "invalid utf8"
                      | some txt => .ok (RType.TXT
                          { length := (rd_length % 256 + 255) % 256, data := txt })
                    | [] => .panicked "slice index out of range"
                  | 28 =>
                    match readU16 rd_data 0, readU16 rd_data 2, readU16 rd_data 4,
                        readU16 rd_data 6, readU16 rd_data 8, readU16 rd_data 10,
                        readU16 rd_data 12, readU16 rd_data 14 with
                    | some g1, some g2, some g3, some g4, some g5, some g6,
                        some g7, some g8 =>
                      .ok (RType.AAAA ⟨g1, g2, g3, g4, g5, g6, g7, g8⟩)
                    | _, _, _, _, _, _, _, _ =>
                      .panicked "slice index out of range"
                  | _ =>
                    .panicked "deserialize: type code not supported: ")
                  : PanicOr RType) with
                | .panicked m => .panicked m
                | .ok type_with_data =>
                  match toClass class_code with
                  | none => .panicked "Invalid class error"
                  | some rclass =>
                    match deserialize_resource_records fuel buf
                        (updated_index + 10 + rd_length) records_count with
                    | .panicked m => .panicked m
                    | .ok (records, final_index) =>
                      .ok ({ name := name, rtype := type_with_data,
                             rclass := rclass, ttl := ttl,
                             rd_length := rd_length } :: records, final_index)

/-- The two bytes emitted for a u16 value recombine to it. -/
theorem u16Bytes_val (x : Nat) (hx : x < 65536) :
    ((x >>> 8) &&& 255) * 256 + (x &&& 255) = x := by
  have h1 : x &&& 255 = x % 2 ^ 8 := by
    have := Nat.and_pow_two_sub_one_eq_mod x 8
    norm_num at this
    simpa using this
  have h2 : x >>> 8 = x / 2 ^ 8 := Nat.shiftRight_eq_div_pow x 8
  have h3 : (x / 2 ^ 8) &&& 255 = (x / 2 ^ 8) % 2 ^ 8 := by
    have := Nat.and_pow_two_sub_one_eq_mod (x / 2 ^ 8) 8
    norm_num at this
    simpa using this
  rw [h1, h2, h3]
  omega

/-- The four bytes emitted for a u32 value recombine to it. -/
theorem u32Bytes_val (x : Nat) (hx : x < 2 ^ 32) :
    ((((x >>> 24) &&& 255) * 256 + ((x >>> 16) &&& 255)) * 256
        + ((x >>> 8) &&& 255)) * 256 + (x &&& 255) = x := by
  have hm : ∀ y : Nat, y &&& 255 = y % 2 ^ 8 := by
    intro y
    have := Nat.and_pow_two_sub_one_eq_mod y 8
    norm_num at this
    simpa using this
  have hs : ∀ k : Nat, x >>> k = x / 2 ^ k := fun k => Nat.shiftRight_eq_div_pow x k
  rw [hm, hm, hm, hm, hs, hs, hs]
  omega

/-- Claim C5, amended: the codec has no error kinds — decoding is partial
and its failures are panics.  For every buffer holding a resource record
whose TYPE code is outside the supported set {1, 2, 5, 6, 12, 16, 28},
`deserialize_resource_records` hits the source's
`panic!("deserialize: type code not supported")` instead of returning an
`UnsupportedType` error value (no such value exists in the code). -/
theorem C5_unknown_type_code_panics (fuel t : Nat) (tail : Bytes)
    (hf : 0 < fuel) (ht : t < 65536)
    (hsupp : t ∉ ([1, 2, 5, 6, 12, 16, 28] : List Nat)) :
    deserialize_resource_records fuel
        (0 :: ((t >>> 8) &&& 255) :: (t &&& 255)
          :: 0 :: 1 :: 0 :: 0 :: 0 :: 0 :: 0 :: 0 :: tail) 0 1
      = .panicked "deserialize: type code not supported: " := by
  obtain ⟨f, rfl⟩ : ∃ f, fuel = f + 1 := ⟨fuel - 1, by omega⟩
  simp only [deserialize_resource_records, read_labels, byteAt, readU16, readU32,
    readSlice, List.drop_succ_cons, List.drop_zero, List.head?, List.length_cons,
    if_pos rfl, if_true, Nat.zero_add]
  simp only [u16Bytes_val t ht]
  norm_num
  simp at hsupp
  split <;> simp_all

/-- Claim C5 counterexample: decoding a record with TYPE code 3 panics;
no `UnsupportedType` (or any other codec error value) is produced —
the codec's error kinds do not exist in the code. -/
theorem C5_unknown_type_not_an_error :
    deserialize_resource_records 1 [0, 0, 3, 0, 1, 0, 0, 0, 0, 0, 0] 0 1
      = .panicked "deserialize: type code not supported: " := by
  decide

/-- Witness for the amended C5 at TYPE code 3. -/
theorem C5_unknown_type_code_panics_witness :
    deserialize_resource_records 1
        (0 :: (((3:Nat) >>> 8) &&& 255) :: ((3:Nat) &&& 255)
          :: 0 :: 1 :: 0 :: 0 :: 0 :: 0 :: 0 :: 0 :: ([] : Bytes)) 0 1
      = .panicked "deserialize: type code not supported: " :=
  C5_unknown_type_code_panics 1 3 [] (by decide) (by decide) (by decide)

/-- Claim C6 counterexample: serializing a PTR record — one of the
claim's supported types — hits the source's
`panic!("ResourceRecord:serialize type not supported")`, so no
round-trip exists for PTR (nor MX, which the decoder also rejects). -/
theorem C6_ptr_serialize_panics :
    ResourceRecord.serialize
        { name := "4.3.2.1.in-addr.arpa.", rtype := .PTR "host.example.",
          rclass := .IN, ttl := 300, rd_length := 14 }
      = .panicked "ResourceRecord:serialize type not supported: " := by
  decide

/-- The labels of a name as write_labels computes them: dot-split pieces
with empties dropped. -/
def labelsOf (domain : String) : List (List Char) :=
  (splitOnDot domain.data).filter (fun l => 0 < l.length)

/-- Rust `Vec::join(".")` at the char-list level. -/
def joinDotL : List (List Char) → List Char
  | [] => []
  | [l] => l
  | l :: rest => l ++ '.' :: joinDotL rest

/-- The byte sequence write_labels emits before the terminating zero. -/
def encodeLabels (ls : List (List Char)) : Bytes :=
  ls.flatMap (fun l => l.length :: l.map Char.toNat)

/-- Names for which the label codec is its own inverse: the root name, or
an absolute all-ASCII name whose labels are nonempty and at most 63
chars, rebuilt exactly from its labels, with a joined form longer than
one char (read_labels drops the dot of one-char names). -/
@[reducible]
def normalName (domain : String) : Prop :=
  domain = "." ∨
    (labelsOf domain ≠ []
      ∧ (∀ l ∈ labelsOf domain, l.length ≤ 63 ∧ ∀ c ∈ l, c.toNat < 128)
      ∧ domain.data = joinDotL (labelsOf domain) ++ ['.']
      ∧ 1 < (joinDotL (labelsOf domain)).length)

/-- splitOnDot never returns the empty list. -/
theorem splitOnDot_ne_nil (cs : List Char) : splitOnDot cs ≠ [] := by
  induction cs with
  | nil => simp [splitOnDot]
  | cons c rest ih =>
    by_cases hc : c = '.'
    · simp [splitOnDot, hc]
    · simp only [splitOnDot, if_neg hc]
      rcases hs : splitOnDot rest with _ | ⟨h, t⟩
      · simp
      · simp

/-- Pieces produced by splitOnDot contain no dot. -/
theorem splitOnDot_no_dot (cs : List Char) :
    ∀ l ∈ splitOnDot cs, '.' ∉ l := by
  induction cs with
  | nil =>
    intro l hl
    simp [splitOnDot] at hl
    simp [hl]
  | cons c rest ih =>
    intro l hl
    by_cases hc : c = '.'
    · simp only [splitOnDot, if_pos hc, List.mem_cons] at hl
      rcases hl with rfl | hl
      · simp
      · exact ih l hl
    · simp only [splitOnDot, if_neg hc] at hl
      rcases hs : splitOnDot rest with _ | ⟨h, t⟩
      · exact absurd hs (splitOnDot_ne_nil rest)
      · rw [hs] at hl
        simp only [List.mem_cons] at hl
        rcases hl with rfl | hl
        · intro hmem
          simp only [List.mem_cons] at hmem
          rcases hmem with heq | hmem
          · exact hc heq.symm
          · exact ih h (by simp [hs]) hmem
        · exact ih l (by simp [hs, hl])

/-- joinDot mirrors joinDotL through the String wrapper. -/
theorem joinDot_data (ls : List (List Char)) :
    (joinDot (ls.map (fun l => (⟨l⟩ : String)))).data = joinDotL ls := by
  induction ls with
  | nil => rfl
  | cons l rest ih =>
    cases rest with
    | nil => rfl
    | cons l2 rest2 =>
      simp only [List.map_cons, joinDot, joinDotL]
      rw [String.data_append, String.data_append]
      simp only [List.map_cons] at ih
      rw [ih]
      simp

/-- The joined labels never end in a dot when each label is nonempty and
dot-free. -/
theorem joinDotL_getLast_ne_dot (ls : List (List Char)) (hne : ls ≠ [])
    (h : ∀ l ∈ ls, 0 < l.length ∧ '.' ∉ l) :
    (joinDotL ls).getLast? ≠ some '.' := by
  induction ls with
  | nil => exact absurd rfl hne
  | cons l rest ih =>
    cases rest with
    | nil =>
      obtain ⟨hl0, hldot⟩ := h l (by simp)
      simp only [joinDotL]
      intro hlast
      have hl : l ≠ [] := by
        intro hnil
        rw [hnil] at hl0
        simp at hl0
      rw [List.getLast?_eq_getLast l hl] at hlast
      have := List.getLast_mem hl
      rw [Option.some.inj hlast] at this
      exact hldot this
    | cons l2 rest2 =>
      have hjoin : joinDotL (l :: l2 :: rest2) = l ++ '.' :: joinDotL (l2 :: rest2) := rfl
      have h2 : joinDotL (l2 :: rest2) ≠ [] := by
        intro hnil
        have hl2 := h l2 (by simp)
        cases rest2 with
        | nil =>
          simp [joinDotL] at hnil
          rw [hnil] at hl2
          simp at hl2
        | cons l3 rest3 =>
          have hj3 : joinDotL (l2 :: l3 :: rest3) = l2 ++ '.' :: joinDotL (l3 :: rest3) := rfl
          rw [hj3] at hnil
          simp at hnil
      obtain ⟨j, J, hJ⟩ := List.exists_cons_of_ne_nil h2
      rw [hjoin, List.getLast?_append_cons, hJ, List.getLast?_cons_cons]
      have hih := ih (by simp) (fun l' hl' => h l' (by simp [hl']))
      rw [hJ] at hih
      exact hih

/-- Reading one byte just past a known prefix. -/
theorem byteAt_at (pre rest : Bytes) (x : Nat) :
    byteAt (pre ++ x :: rest) pre.length = some x := by
  simp [byteAt, List.drop_left]

/-- Reading a big-endian pair just past a known prefix. -/
theorem readU16_at (pre rest : Bytes) (a b : Nat) :
    readU16 (pre ++ a :: b :: rest) pre.length = some (a * 256 + b) := by
  simp only [readU16, List.drop_left]

/-- Reading a big-endian quad just past a known prefix. -/
theorem readU32_at (pre rest : Bytes) (a b c d : Nat) :
    readU32 (pre ++ a :: b :: c :: d :: rest) pre.length
      = some (((a * 256 + b) * 256 + c) * 256 + d) := by
  simp only [readU32, List.drop_left]

/-- Slicing a known middle segment out of a buffer. -/
theorem readSlice_at (pre mid rest : Bytes) :
    readSlice (pre ++ (mid ++ rest)) pre.length mid.length = some mid := by
  simp only [readSlice, List.drop_left]
  rw [if_pos (by simp [List.length_append]), List.take_left]

/-- A label length (≤ 63) never looks like a compression pointer. -/
theorem label_len_not_pointer (n : Nat) (h : n ≤ 63) : ¬(n &&& 192 = 192) := by
  intro hc
  have := Nat.and_le_left (n := n) (m := 192)
  omega

/-- The label loop of read_labels inverts encodeLabels: it collects
exactly the encoded labels and stops on the terminating zero byte. -/
theorem readLabelsGo_encode (ls : List (List Char)) :
    ∀ (fuel : Nat) (pre rest : Bytes) (acc : List String),
      ls.length < fuel →
      (∀ l ∈ ls, 0 < l.length ∧ l.length ≤ 63 ∧ ∀ c ∈ l, c.toNat < 128) →
      readLabelsGo fuel (pre ++ encodeLabels ls ++ (0 :: rest)) pre.length acc
        = some (acc ++ ls.map (fun l => (⟨l⟩ : String)),
            pre.length + (encodeLabels ls).length) := by
  induction ls with
  | nil =>
    intro fuel pre rest acc hfuel h
    obtain ⟨f, rfl⟩ : ∃ f, fuel = f + 1 := ⟨fuel - 1, by omega⟩
    have hb : byteAt (pre ++ encodeLabels [] ++ (0 :: rest)) pre.length = some 0 := by
      simpa [encodeLabels] using byteAt_at pre rest 0
    simp only [readLabelsGo, hb]
    simp [encodeLabels]
  | cons l ls ih =>
    intro fuel pre rest acc hfuel h
    obtain ⟨f, rfl⟩ : ∃ f, fuel = f + 1 := ⟨fuel - 1, by omega⟩
    obtain ⟨hl0, hl63, hlascii⟩ := h l (by simp)
    have hbuf : pre ++ encodeLabels (l :: ls) ++ (0 :: rest)
        = pre ++ l.length :: (l.map Char.toNat
            ++ (encodeLabels ls ++ (0 :: rest))) := by
      simp [encodeLabels, List.append_assoc]
    rw [hbuf]
    have hb := byteAt_at pre
      (l.map Char.toNat ++ (encodeLabels ls ++ (0 :: rest))) l.length
    simp only [readLabelsGo, hb]
    rw [if_neg (label_len_not_pointer l.length hl63),
      if_neg (by omega : ¬l.length = 0)]
    have hslice : readSlice (pre ++ l.length :: (l.map Char.toNat
        ++ (encodeLabels ls ++ (0 :: rest)))) (pre.length + 1) l.length
          = some (l.map Char.toNat) := by
      have hs := readSlice_at (pre ++ [l.length]) (l.map Char.toNat)
        (encodeLabels ls ++ (0 :: rest))
      simpa [List.append_assoc, List.length_append, List.length_map] using hs
    rw [hslice]
    have hstr : bytesToString (l.map Char.toNat) = some ⟨l⟩ := by
      simp only [bytesToString]
      rw [if_pos]
      · have hmap : (l.map Char.toNat).map Char.ofNat = l := by
          rw [List.map_map]
          exact (List.map_congr_left (fun c _ => Char.ofNat_toNat c)).trans
            (List.map_id l)
        rw [hmap]
      · simp only [List.all_eq_true, List.mem_map]
        rintro b ⟨c, hc, rfl⟩
        exact decide_eq_true (hlascii c hc)
    simp only [hstr]
    have hbuf2 : pre ++ l.length :: (l.map Char.toNat
        ++ (encodeLabels ls ++ (0 :: rest)))
          = (pre ++ l.length :: l.map Char.toNat)
              ++ encodeLabels ls ++ (0 :: rest) := by
      simp [List.append_assoc]
    have hidx : pre.length + l.length + 1
        = (pre ++ l.length :: l.map Char.toNat).length := by
      simp [List.length_append, List.length_map]
      omega
    rw [hbuf2, hidx, ih f (pre ++ l.length :: l.map Char.toNat) rest
      (acc ++ [(⟨l⟩ : String)]) (by simp at hfuel; omega)
      (fun l' hl' => h l' (by simp [hl']))]
    simp [encodeLabels, List.length_append, List.length_map]
    omega

/-- write_labels of a non-root name, in terms of its labels. -/
theorem write_labels_eq (domain : String) (h : domain ≠ ".") :
    write_labels domain = encodeLabels (labelsOf domain) ++ [0] := by
  simp [write_labels, if_neg h, encodeLabels, labelsOf]

/-- read_labels inverts write_labels on normal names, at any position in
a longer buffer. -/
theorem read_write_labels (N : String) (hN : normalName N) (pre rest : Bytes)
    (fuel : Nat) (hfuel : (labelsOf N).length + 2 ≤ fuel) :
    read_labels fuel (pre ++ write_labels N ++ rest) pre.length
      = some (N, pre.length + (write_labels N).length) := by
  obtain ⟨f, rfl⟩ : ∃ f, fuel = f + 1 := ⟨fuel - 1, by omega⟩
  rcases hN with hdot | ⟨hne, hlbl, hdata, hlen⟩
  · subst hdot
    have hw : write_labels "." = [0] := rfl
    rw [hw]
    have hb : byteAt (pre ++ [0] ++ rest) pre.length = some 0 := by
      simpa [List.append_assoc] using byteAt_at pre rest 0
    simp only [read_labels, hb]
    simp
  · have hdom : N ≠ "." := by
      intro hd
      rw [hd] at hne
      exact hne (by decide)
    rw [write_labels_eq N hdom]
    obtain ⟨l0, ls', hls⟩ := List.exists_cons_of_ne_nil hne
    have hl00 : 0 < l0.length := by
      have hmem : l0 ∈ labelsOf N := by rw [hls]; simp
      exact of_decide_eq_true (List.mem_filter.mp hmem).2
    have hbuf : pre ++ (encodeLabels (labelsOf N) ++ [0]) ++ rest
        = pre ++ encodeLabels (labelsOf N) ++ (0 :: rest) := by
      simp [List.append_assoc]
    rw [hbuf]
    have hb : byteAt (pre ++ encodeLabels (labelsOf N) ++ (0 :: rest))
        pre.length = some l0.length := by
      have hshape : pre ++ encodeLabels (labelsOf N) ++ (0 :: rest)
          = pre ++ l0.length :: (l0.map Char.toNat
              ++ (encodeLabels ls' ++ (0 :: rest))) := by
        rw [hls]
        simp [encodeLabels, List.append_assoc]
      rw [hshape]
      exact byteAt_at pre _ l0.length
    simp only [read_labels, hb]
    rw [if_neg (by omega : ¬l0.length = 0)]
    have hpos : ∀ l ∈ labelsOf N, 0 < l.length := by
      intro l hl
      exact of_decide_eq_true (List.mem_filter.mp hl).2
    have hnodot : ∀ l ∈ labelsOf N, '.' ∉ l := by
      intro l hl
      exact splitOnDot_no_dot N.data l (List.mem_filter.mp hl).1
    rw [readLabelsGo_encode (labelsOf N) f pre rest [] (by omega)
      (fun l hl => ⟨hpos l hl, (hlbl l hl).1, (hlbl l hl).2⟩)]
    simp only [List.nil_append]
    have hjd : (joinDot ((labelsOf N).map (fun l => (⟨l⟩ : String)))).data
        = joinDotL (labelsOf N) := joinDot_data _
    have hjl : (joinDot ((labelsOf N).map (fun l => (⟨l⟩ : String)))).length
        = (joinDotL (labelsOf N)).length := by
      rw [show (joinDot ((labelsOf N).map (fun l => (⟨l⟩ : String)))).length
          = (joinDot ((labelsOf N).map (fun l => (⟨l⟩ : String)))).data.length
        from rfl, hjd]
    have hend : endsWithChar
        (joinDot ((labelsOf N).map (fun l => (⟨l⟩ : String)))) '.' = false := by
      simp only [endsWithChar, hjd]
      rw [beq_eq_false_iff_ne]
      exact joinDotL_getLast_ne_dot (labelsOf N) hne
        (fun l hl => ⟨hpos l hl, hnodot l hl⟩)
    rw [if_pos ⟨by rw [hjl]; exact hlen, hend⟩]
    have hpush : (joinDot ((labelsOf N).map (fun l => (⟨l⟩ : String)))).push '.' = N := by
      apply String.ext
      rw [String.data_push, hjd, hdata]
    rw [hpush]
    simp [List.length_append]
    omega

/-- The byte layout ResourceRecord::serialize emits: name, type, class,
ttl, recomputed rdlength, rdata. -/
def recordBytes (nm : String) (tc cc ttlv : Nat) (rdata : Bytes) : Bytes :=
  write_labels nm ++ (u16Bytes tc ++ (u16Bytes cc
    ++ (u32Bytes ttlv ++ (u16Bytes rdata.length ++ rdata))))

/-- Reading the owner name of a serialized record. -/
theorem recordBytes_name (nm : String) (hnm : normalName nm)
    (tc cc ttlv : Nat) (rdata : Bytes) (fuel : Nat)
    (hfuel : (labelsOf nm).length + 2 ≤ fuel) :
    read_labels fuel (recordBytes nm tc cc ttlv rdata) 0
      = some (nm, (write_labels nm).length) := by
  have h := read_write_labels nm hnm [] (u16Bytes tc ++ (u16Bytes cc
    ++ (u32Bytes ttlv ++ (u16Bytes rdata.length ++ rdata)))) fuel hfuel
  simpa [recordBytes, List.nil_append] using h

/-- Reading the type code of a serialized record. -/
theorem recordBytes_type (nm : String) (tc cc ttlv : Nat) (htc : tc < 65536)
    (rdata : Bytes) :
    readU16 (recordBytes nm tc cc ttlv rdata) (write_labels nm).length
      = some tc := by
  have h := readU16_at (write_labels nm) (u16Bytes cc
      ++ (u32Bytes ttlv ++ (u16Bytes rdata.length ++ rdata)))
    ((tc >>> 8) &&& 255) (tc &&& 255)
  rw [u16Bytes_val tc htc] at h
  simpa [recordBytes, u16Bytes, List.append_assoc] using h

/-- Reading the class code of a serialized record. -/
theorem recordBytes_class (nm : String) (tc cc ttlv : Nat) (hcc : cc < 65536)
    (rdata : Bytes) :
    readU16 (recordBytes nm tc cc ttlv rdata) ((write_labels nm).length + 2)
      = some cc := by
  have h := readU16_at (write_labels nm ++ u16Bytes tc)
    (u32Bytes ttlv ++ (u16Bytes rdata.length ++ rdata))
    ((cc >>> 8) &&& 255) (cc &&& 255)
  rw [u16Bytes_val cc hcc] at h
  simpa [recordBytes, u16Bytes, List.append_assoc, List.length_append] using h

/-- Reading the ttl of a serialized record. -/
theorem recordBytes_ttl (nm : String) (tc cc ttlv : Nat) (httl : ttlv < 2 ^ 32)
    (rdata : Bytes) :
    readU32 (recordBytes nm tc cc ttlv rdata) ((write_labels nm).length + 4)
      = some ttlv := by
  have h := readU32_at (write_labels nm ++ u16Bytes tc ++ u16Bytes cc)
    (u16Bytes rdata.length ++ rdata)
    ((ttlv >>> 24) &&& 255) ((ttlv >>> 16) &&& 255) ((ttlv >>> 8) &&& 255)
    (ttlv &&& 255)
  rw [u32Bytes_val ttlv httl] at h
  simpa [recordBytes, u16Bytes, u32Bytes, List.append_assoc,
    List.length_append] using h

/-- Reading the rdlength of a serialized record. -/
theorem recordBytes_rdlen (nm : String) (tc cc ttlv : Nat) (rdata : Bytes)
    (hrd : rdata.length < 65536) :
    readU16 (recordBytes nm tc cc ttlv rdata) ((write_labels nm).length + 8)
      = some rdata.length := by
  have h := readU16_at (write_labels nm ++ u16Bytes tc ++ u16Bytes cc
      ++ u32Bytes ttlv) rdata
    ((rdata.length >>> 8) &&& 255) (rdata.length &&& 255)
  rw [u16Bytes_val rdata.length hrd] at h
  simpa [recordBytes, u16Bytes, u32Bytes, List.append_assoc,
    List.length_append] using h

/-- Slicing the rdata of a serialized record. -/
theorem recordBytes_rdata (nm : String) (tc cc ttlv : Nat) (rdata : Bytes) :
    readSlice (recordBytes nm tc cc ttlv rdata) ((write_labels nm).length + 10)
        rdata.length = some rdata := by
  have h := readSlice_at (write_labels nm ++ u16Bytes tc ++ u16Bytes cc
      ++ u32Bytes ttlv ++ u16Bytes rdata.length) rdata []
  simpa [recordBytes, u16Bytes, u32Bytes, List.append_assoc,
    List.length_append] using h

/-- Length of the serialized record frame. -/
theorem recordBytes_length (nm : String) (tc cc ttlv : Nat) (rdata : Bytes) :
    (recordBytes nm tc cc ttlv rdata).length
      = (write_labels nm).length + 10 + rdata.length := by
  simp [recordBytes, u16Bytes, u32Bytes, List.length_append]
  omega

/-- Class codes emitted by serialize decode to the same class. -/
theorem toClass_to_u16 (c : RClass) : toClass c.to_u16 = some c := by
  cases c <;> rfl

/-- Records for which the claimed round trip can hold: a serializable
type (PTR, HINFO and MX panic on serialize), in-range numeric fields,
and wire-normal names wherever names occur; rdata must fit the 16-bit
RDLENGTH. -/
@[reducible]
def serializableNormal (rr : ResourceRecord) : Prop :=
  normalName rr.name ∧ rr.ttl < 2 ^ 32 ∧
  (match rr.rtype with
   | .A _ => True
   | .AAAA ip => ip.g1 < 65536 ∧ ip.g2 < 65536 ∧ ip.g3 < 65536 ∧ ip.g4 < 65536
       ∧ ip.g5 < 65536 ∧ ip.g6 < 65536 ∧ ip.g7 < 65536 ∧ ip.g8 < 65536
   | .NS n => normalName n ∧ (write_labels n).length < 65536
   | .CNAME n => normalName n ∧ (write_labels n).length < 65536
   | .SOA s => normalName s.mname ∧ normalName s.rname ∧ s.serial < 2 ^ 32
       ∧ s.refresh_in_secs < 2 ^ 32 ∧ s.retry_in_secs < 2 ^ 32
       ∧ s.expire_in_secs < 2 ^ 32 ∧ s.minimum < 2 ^ 32
       ∧ (SOAData.serialize s).length < 65536
   | .TXT t => t.length = t.data.length ∧ t.data.length ≤ 254
       ∧ ∀ c ∈ t.data.data, c.toNat < 128
   | _ => False)

/-- Label-recursion fuel sufficient to decode a serialized record. -/
def fuelFor (rr : ResourceRecord) : Nat :=
  (labelsOf rr.name).length +
    (match rr.rtype with
     | .NS n => (labelsOf n).length
     | .CNAME n => (labelsOf n).length
     | .SOA s => (labelsOf s.mname).length + (labelsOf s.rname).length
     | _ => 0) + 2

/-- Round trip for an A record. -/
theorem roundtrip_A (nm : String) (ip : Ipv4) (cl : RClass) (ttlv rdl fuel : Nat)
    (hnm : normalName nm) (httl : ttlv < 2 ^ 32) (hcl : cl.to_u16 < 65536)
    (hfu : (labelsOf nm).length + 2 ≤ fuel) :
    ∃ bytes rr2,
      ResourceRecord.serialize
          { name := nm, rtype := .A ip, rclass := cl, ttl := ttlv,
            rd_length := rdl } = .ok bytes
      ∧ deserialize_resource_records fuel bytes 0 1 = .ok ([rr2], bytes.length)
      ∧ rr2.name = nm ∧ rr2.rtype = .A ip ∧ rr2.rclass = cl ∧ rr2.ttl = ttlv := by
  refine ⟨recordBytes nm 1 cl.to_u16 ttlv [ip.o1, ip.o2, ip.o3, ip.o4],
    { name := nm, rtype := .A ip, rclass := cl, ttl := ttlv, rd_length := 4 },
    ?_, ?_, rfl, rfl, rfl, rfl⟩
  · simp [ResourceRecord.serialize, recordBytes, RType.to_u16, List.append_assoc]
  · simp only [deserialize_resource_records,
      recordBytes_name nm hnm 1 cl.to_u16 ttlv [ip.o1, ip.o2, ip.o3, ip.o4] fuel hfu,
      recordBytes_type nm 1 cl.to_u16 ttlv (by norm_num)
        [ip.o1, ip.o2, ip.o3, ip.o4],
      recordBytes_class nm 1 cl.to_u16 ttlv hcl [ip.o1, ip.o2, ip.o3, ip.o4],
      recordBytes_ttl nm 1 cl.to_u16 ttlv httl [ip.o1, ip.o2, ip.o3, ip.o4],
      recordBytes_rdlen nm 1 cl.to_u16 ttlv [ip.o1, ip.o2, ip.o3, ip.o4]
        (by simp),
      recordBytes_rdata nm 1 cl.to_u16 ttlv [ip.o1, ip.o2, ip.o3, ip.o4],
      toClass_to_u16]
    simp [recordBytes_length]

/-- Round trip for an AAAA record. -/
theorem roundtrip_AAAA (nm : String) (ip : Ipv6) (cl : RClass)
    (ttlv rdl fuel : Nat) (hnm : normalName nm) (httl : ttlv < 2 ^ 32)
    (hcl : cl.to_u16 < 65536) (hfu : (labelsOf nm).length + 2 ≤ fuel)
    (hg1 : ip.g1 < 65536) (hg2 : ip.g2 < 65536) (hg3 : ip.g3 < 65536)
    (hg4 : ip.g4 < 65536) (hg5 : ip.g5 < 65536) (hg6 : ip.g6 < 65536)
    (hg7 : ip.g7 < 65536) (hg8 : ip.g8 < 65536) :
    ∃ bytes rr2,
      ResourceRecord.serialize
          { name := nm, rtype := .AAAA ip, rclass := cl, ttl := ttlv,
            rd_length := rdl } = .ok bytes
      ∧ deserialize_resource_records fuel bytes 0 1 = .ok ([rr2], bytes.length)
      ∧ rr2.name = nm ∧ rr2.rtype = .AAAA ip ∧ rr2.rclass = cl
      ∧ rr2.ttl = ttlv := by
  refine ⟨recordBytes nm 28 cl.to_u16 ttlv
      (u16Bytes ip.g1 ++ u16Bytes ip.g2 ++ u16Bytes ip.g3 ++ u16Bytes ip.g4
        ++ u16Bytes ip.g5 ++ u16Bytes ip.g6 ++ u16Bytes ip.g7 ++ u16Bytes ip.g8),
    { name := nm, rtype := .AAAA ip, rclass := cl, ttl := ttlv,
      rd_length := 16 },
    ?_, ?_, rfl, rfl, rfl, rfl⟩
  · simp [ResourceRecord.serialize, recordBytes, RType.to_u16, List.append_assoc]
  · have hlen : (u16Bytes ip.g1 ++ u16Bytes ip.g2 ++ u16Bytes ip.g3
        ++ u16Bytes ip.g4 ++ u16Bytes ip.g5 ++ u16Bytes ip.g6 ++ u16Bytes ip.g7
        ++ u16Bytes ip.g8).length < 65536 := by
      simp [u16Bytes]
    simp only [deserialize_resource_records,
      recordBytes_name nm hnm 28 cl.to_u16 ttlv _ fuel hfu,
      recordBytes_type nm 28 cl.to_u16 ttlv (by norm_num) _,
      recordBytes_class nm 28 cl.to_u16 ttlv hcl _,
      recordBytes_ttl nm 28 cl.to_u16 ttlv httl _,
      recordBytes_rdlen nm 28 cl.to_u16 ttlv
        (u16Bytes ip.g1 ++ u16Bytes ip.g2 ++ u16Bytes ip.g3 ++ u16Bytes ip.g4
          ++ u16Bytes ip.g5 ++ u16Bytes ip.g6 ++ u16Bytes ip.g7
          ++ u16Bytes ip.g8) hlen,
      recordBytes_rdata nm 28 cl.to_u16 ttlv _,
      toClass_to_u16]
    simp only [u16Bytes, List.cons_append, List.nil_append, readU16,
      List.drop_succ_cons, List.drop_zero]
    simp only [u16Bytes_val ip.g1 hg1, u16Bytes_val ip.g2 hg2,
      u16Bytes_val ip.g3 hg3, u16Bytes_val ip.g4 hg4, u16Bytes_val ip.g5 hg5,
      u16Bytes_val ip.g6 hg6, u16Bytes_val ip.g7 hg7, u16Bytes_val ip.g8 hg8]
    simp [recordBytes_length, u16Bytes]

/-- Round trip for an NS record. -/
theorem roundtrip_NS (nm n : String) (cl : RClass) (ttlv rdl fuel : Nat)
    (hnm : normalName nm) (hn : normalName n) (httl : ttlv < 2 ^ 32)
    (hcl : cl.to_u16 < 65536) (hrdlen : (write_labels n).length < 65536)
    (hfu : (labelsOf nm).length + 2 ≤ fuel)
    (hfn : (labelsOf n).length + 2 ≤ fuel) :
    ∃ bytes rr2,
      ResourceRecord.serialize
          { name := nm, rtype := .NS n, rclass := cl, ttl := ttlv,
            rd_length := rdl } = .ok bytes
      ∧ deserialize_resource_records fuel bytes 0 1 = .ok ([rr2], bytes.length)
      ∧ rr2.name = nm ∧ rr2.rtype = .NS n ∧ rr2.rclass = cl ∧ rr2.ttl = ttlv := by
  refine ⟨recordBytes nm 2 cl.to_u16 ttlv (write_labels n),
    { name := nm, rtype := .NS n, rclass := cl, ttl := ttlv,
      rd_length := (write_labels n).length },
    ?_, ?_, rfl, rfl, rfl, rfl⟩
  · simp [ResourceRecord.serialize, recordBytes, RType.to_u16, List.append_assoc]
  · have hinner : read_labels fuel
        (recordBytes nm 2 cl.to_u16 ttlv (write_labels n))
        ((write_labels nm).length + 10)
          = some (n, (write_labels nm).length + 10 + (write_labels n).length) := by
      have hpre : (write_labels nm ++ (u16Bytes 2 ++ (u16Bytes cl.to_u16
          ++ (u32Bytes ttlv ++ u16Bytes (write_labels n).length)))).length
            = (write_labels nm).length + 10 := by
        simp [u16Bytes, u32Bytes, List.length_append]
      have h2 := read_write_labels n hn
        (write_labels nm ++ (u16Bytes 2 ++ (u16Bytes cl.to_u16
          ++ (u32Bytes ttlv ++ u16Bytes (write_labels n).length)))) [] fuel hfn
      rw [hpre] at h2
      simpa [recordBytes, List.append_assoc] using h2
    simp only [deserialize_resource_records,
      recordBytes_name nm hnm 2 cl.to_u16 ttlv _ fuel hfu,
      recordBytes_type nm 2 cl.to_u16 ttlv (by norm_num) _,
      recordBytes_class nm 2 cl.to_u16 ttlv hcl _,
      recordBytes_ttl nm 2 cl.to_u16 ttlv httl _,
      recordBytes_rdlen nm 2 cl.to_u16 ttlv (write_labels n) hrdlen,
      recordBytes_rdata nm 2 cl.to_u16 ttlv _,
      hinner, toClass_to_u16]
    simp [recordBytes_length]

/-- Round trip for a CNAME record. -/
theorem roundtrip_CNAME (nm n : String) (cl : RClass) (ttlv rdl fuel : Nat)
    (hnm : normalName nm) (hn : normalName n) (httl : ttlv < 2 ^ 32)
    (hcl : cl.to_u16 < 65536) (hrdlen : (write_labels n).length < 65536)
    (hfu : (labelsOf nm).length + 2 ≤ fuel)
    (hfn : (labelsOf n).length + 2 ≤ fuel) :
    ∃ bytes rr2,
      ResourceRecord.serialize
          { name := nm, rtype := .CNAME n, rclass := cl, ttl := ttlv,
            rd_length := rdl } = .ok bytes
      ∧ deserialize_resource_records fuel bytes 0 1 = .ok ([rr2], bytes.length)
      ∧ rr2.name = nm ∧ rr2.rtype = .CNAME n ∧ rr2.rclass = cl
      ∧ rr2.ttl = ttlv := by
  refine ⟨recordBytes nm 5 cl.to_u16 ttlv (write_labels n),
    { name := nm, rtype := .CNAME n, rclass := cl, ttl := ttlv,
      rd_length := (write_labels n).length },
    ?_, ?_, rfl, rfl, rfl, rfl⟩
  · simp [ResourceRecord.serialize, recordBytes, RType.to_u16, List.append_assoc]
  · have hinner : read_labels fuel
        (recordBytes nm 5 cl.to_u16 ttlv (write_labels n))
        ((write_labels nm).length + 10)
          = some (n, (write_labels nm).length + 10 + (write_labels n).length) := by
      have hpre : (write_labels nm ++ (u16Bytes 5 ++ (u16Bytes cl.to_u16
          ++ (u32Bytes ttlv ++ u16Bytes (write_labels n).length)))).length
            = (write_labels nm).length + 10 := by
        simp [u16Bytes, u32Bytes, List.length_append]
      have h2 := read_write_labels n hn
        (write_labels nm ++ (u16Bytes 5 ++ (u16Bytes cl.to_u16
          ++ (u32Bytes ttlv ++ u16Bytes (write_labels n).length)))) [] fuel hfn
      rw [hpre] at h2
      simpa [recordBytes, List.append_assoc] using h2
    simp only [deserialize_resource_records,
      recordBytes_name nm hnm 5 cl.to_u16 ttlv _ fuel hfu,
      recordBytes_type nm 5 cl.to_u16 ttlv (by norm_num) _,
      recordBytes_class nm 5 cl.to_u16 ttlv hcl _,
      recordBytes_ttl nm 5 cl.to_u16 ttlv httl _,
      recordBytes_rdlen nm 5 cl.to_u16 ttlv (write_labels n) hrdlen,
      recordBytes_rdata nm 5 cl.to_u16 ttlv _,
      hinner, toClass_to_u16]
    simp [recordBytes_length]

/-- Round trip for a TXT record. -/
theorem roundtrip_TXT (nm : String) (t : TXTData) (cl : RClass)
    (ttlv rdl fuel : Nat) (hnm : normalName nm) (httl : ttlv < 2 ^ 32)
    (hcl : cl.to_u16 < 65536) (hfu : (labelsOf nm).length + 2 ≤ fuel)
    (hlen : t.length = t.data.length) (hd : t.data.length ≤ 254)
    (hascii : ∀ c ∈ t.data.data, c.toNat < 128) :
    ∃ bytes rr2,
      ResourceRecord.serialize
          { name := nm, rtype := .TXT t, rclass := cl, ttl := ttlv,
            rd_length := rdl } = .ok bytes
      ∧ deserialize_resource_records fuel bytes 0 1 = .ok ([rr2], bytes.length)
      ∧ rr2.name = nm ∧ rr2.rtype = .TXT t ∧ rr2.rclass = cl
      ∧ rr2.ttl = ttlv := by
  refine ⟨recordBytes nm 16 cl.to_u16 ttlv (t.length :: t.data.data.map Char.toNat),
    { name := nm, rtype := .TXT t, rclass := cl, ttl := ttlv,
      rd_length := (t.length :: t.data.data.map Char.toNat).length },
    ?_, ?_, rfl, ?_, rfl, rfl⟩
  · simp [ResourceRecord.serialize, recordBytes, RType.to_u16,
      TXTData.serialize, List.append_assoc]
  · have hbs : bytesToString (t.data.data.map Char.toNat) = some t.data := by
      simp only [bytesToString]
      rw [if_pos]
      · have hmap : (t.data.data.map Char.toNat).map Char.ofNat = t.data.data := by
          rw [List.map_map]
          exact (List.map_congr_left (fun c _ => Char.ofNat_toNat c)).trans
            (List.map_id t.data.data)
        rw [hmap]
      · simp only [List.all_eq_true, List.mem_map]
        rintro b ⟨c, hc, rfl⟩
        exact decide_eq_true (hascii c hc)
    have hrdlen : (t.length :: t.data.data.map Char.toNat).length < 65536 := by
      have : t.data.data.length ≤ 254 := hd
      simp [List.length_map]
      omega
    have htlen : (((t.length :: t.data.data.map Char.toNat).length % 256 + 255)
        % 256) = t.length := by
      have h1 : t.data.data.length ≤ 254 := hd
      simp [List.length_map]
      omega
    simp only [deserialize_resource_records,
      recordBytes_name nm hnm 16 cl.to_u16 ttlv _ fuel hfu,
      recordBytes_type nm 16 cl.to_u16 ttlv (by norm_num) _,
      recordBytes_class nm 16 cl.to_u16 ttlv hcl _,
      recordBytes_ttl nm 16 cl.to_u16 ttlv httl _,
      recordBytes_rdlen nm 16 cl.to_u16 ttlv
        (t.length :: t.data.data.map Char.toNat) hrdlen,
      recordBytes_rdata nm 16 cl.to_u16 ttlv _,
      hbs, toClass_to_u16]
    simp only [htlen]
    simp [recordBytes_length]
  · rfl

/-- Round trip for an SOA record. -/
theorem roundtrip_SOA (nm : String) (s : SOAData) (cl : RClass)
    (ttlv rdl fuel : Nat) (hnm : normalName nm) (hm : normalName s.mname)
    (hr : normalName s.rname) (httl : ttlv < 2 ^ 32) (hcl : cl.to_u16 < 65536)
    (h1 : s.serial < 2 ^ 32) (h2 : s.refresh_in_secs < 2 ^ 32)
    (h3 : s.retry_in_secs < 2 ^ 32) (h4 : s.expire_in_secs < 2 ^ 32)
    (h5 : s.minimum < 2 ^ 32)
    (hrdlen : (SOAData.serialize s).length < 65536)
    (hfu : (labelsOf nm).length + 2 ≤ fuel)
    (hfm : (labelsOf s.mname).length + 2 ≤ fuel)
    (hfr : (labelsOf s.rname).length + 2 ≤ fuel) :
    ∃ bytes rr2,
      ResourceRecord.serialize
          { name := nm, rtype := .SOA s, rclass := cl, ttl := ttlv,
            rd_length := rdl } = .ok bytes
      ∧ deserialize_resource_records fuel bytes 0 1 = .ok ([rr2], bytes.length)
      ∧ rr2.name = nm ∧ rr2.rtype = .SOA s ∧ rr2.rclass = cl
      ∧ rr2.ttl = ttlv := by
  refine ⟨recordBytes nm 6 cl.to_u16 ttlv (SOAData.serialize s),
    { name := nm, rtype := .SOA s, rclass := cl, ttl := ttlv,
      rd_length := (SOAData.serialize s).length },
    ?_, ?_, rfl, rfl, rfl, rfl⟩
  · simp [ResourceRecord.serialize, recordBytes, RType.to_u16, List.append_assoc]
  · have hsoa : SOAData.deserialize fuel
        (recordBytes nm 6 cl.to_u16 ttlv (SOAData.serialize s))
        ((write_labels nm).length + 10) = some s := by
      have hpre0 : (write_labels nm ++ (u16Bytes 6 ++ (u16Bytes cl.to_u16
          ++ (u32Bytes ttlv ++ u16Bytes (SOAData.serialize s).length)))).length
            = (write_labels nm).length + 10 := by
        simp [u16Bytes, u32Bytes, List.length_append]
      have hmn := read_write_labels s.mname hm
        (write_labels nm ++ (u16Bytes 6 ++ (u16Bytes cl.to_u16
          ++ (u32Bytes ttlv ++ u16Bytes (SOAData.serialize s).length))))
        (write_labels s.rname ++ (u32Bytes s.serial
          ++ (u32Bytes s.refresh_in_secs ++ (u32Bytes s.retry_in_secs
            ++ (u32Bytes s.expire_in_secs ++ u32Bytes s.minimum)))))
        fuel hfm
      rw [hpre0] at hmn
      have hmn2 : read_labels fuel
          (recordBytes nm 6 cl.to_u16 ttlv (SOAData.serialize s))
          ((write_labels nm).length + 10)
            = some (s.mname,
                (write_labels nm).length + 10 + (write_labels s.mname).length) := by
        simpa [recordBytes, SOAData.serialize, List.append_assoc] using hmn
      have hpre1 : ((write_labels nm ++ (u16Bytes 6 ++ (u16Bytes cl.to_u16
          ++ (u32Bytes ttlv ++ u16Bytes (SOAData.serialize s).length))))
            ++ write_labels s.mname).length
              = (write_labels nm).length + 10 + (write_labels s.mname).length := by
        simp [u16Bytes, u32Bytes, List.length_append]
        omega
      have hrn := read_write_labels s.rname hr
        ((write_labels nm ++ (u16Bytes 6 ++ (u16Bytes cl.to_u16
          ++ (u32Bytes ttlv ++ u16Bytes (SOAData.serialize s).length))))
            ++ write_labels s.mname)
        (u32Bytes s.serial ++ (u32Bytes s.refresh_in_secs
          ++ (u32Bytes s.retry_in_secs
            ++ (u32Bytes s.expire_in_secs ++ u32Bytes s.minimum))))
        fuel hfr
      rw [hpre1] at hrn
      have hrn2 : read_labels fuel
          (recordBytes nm 6 cl.to_u16 ttlv (SOAData.serialize s))
          ((write_labels nm).length + 10 + (write_labels s.mname).length)
            = some (s.rname,
                (write_labels nm).length + 10 + (write_labels s.mname).length
                  + (write_labels s.rname).length) := by
        simpa [recordBytes, SOAData.serialize, List.append_assoc] using hrn
      have hvser := readU32_at
        (((write_labels nm ++ (u16Bytes 6 ++ (u16Bytes cl.to_u16
          ++ (u32Bytes ttlv ++ u16Bytes (SOAData.serialize s).length))))
            ++ write_labels s.mname) ++ write_labels s.rname)
        (u32Bytes s.refresh_in_secs ++ (u32Bytes s.retry_in_secs
          ++ (u32Bytes s.expire_in_secs ++ u32Bytes s.minimum)))
        ((s.serial >>> 24) &&& 255) ((s.serial >>> 16) &&& 255)
        ((s.serial >>> 8) &&& 255) (s.serial &&& 255)
      rw [u32Bytes_val s.serial h1] at hvser
      have hpre2 : ((((write_labels nm ++ (u16Bytes 6 ++ (u16Bytes cl.to_u16
          ++ (u32Bytes ttlv ++ u16Bytes (SOAData.serialize s).length))))
            ++ write_labels s.mname) ++ write_labels s.rname)).length
              = (write_labels nm).length + 10 + (write_labels s.mname).length
                  + (write_labels s.rname).length := by
        simp [u16Bytes, u32Bytes, List.length_append]
        omega
      rw [hpre2] at hvser
      have hser2 : readU32
          (recordBytes nm 6 cl.to_u16 ttlv (SOAData.serialize s))
          ((write_labels nm).length + 10 + (write_labels s.mname).length
            + (write_labels s.rname).length) = some s.serial := by
        simpa [recordBytes, SOAData.serialize, u32Bytes,
          List.append_assoc] using hvser
      have hvref := readU32_at
        ((((write_labels nm ++ (u16Bytes 6 ++ (u16Bytes cl.to_u16
          ++ (u32Bytes ttlv ++ u16Bytes (SOAData.serialize s).length))))
            ++ write_labels s.mname) ++ write_labels s.rname)
              ++ u32Bytes s.serial)
        (u32Bytes s.retry_in_secs
          ++ (u32Bytes s.expire_in_secs ++ u32Bytes s.minimum))
        ((s.refresh_in_secs >>> 24) &&& 255) ((s.refresh_in_secs >>> 16) &&& 255)
        ((s.refresh_in_secs >>> 8) &&& 255) (s.refresh_in_secs &&& 255)
      rw [u32Bytes_val s.refresh_in_secs h2] at hvref
      have hpre3 : (((((write_labels nm ++ (u16Bytes 6 ++ (u16Bytes cl.to_u16
          ++ (u32Bytes ttlv ++ u16Bytes (SOAData.serialize s).length))))
            ++ write_labels s.mname) ++ write_labels s.rname)
              ++ u32Bytes s.serial)).length
              = (write_labels nm).length + 10 + (write_labels s.mname).length
                  + (write_labels s.rname).length + 4 := by
        simp [u16Bytes, u32Bytes, List.length_append]
        omega
      rw [hpre3] at hvref
      have href2 : readU32
          (recordBytes nm 6 cl.to_u16 ttlv (SOAData.serialize s))
          ((write_labels nm).length + 10 + (write_labels s.mname).length
            + (write_labels s.rname).length + 4) = some s.refresh_in_secs := by
        simpa [recordBytes, SOAData.serialize, u32Bytes,
          List.append_assoc] using hvref
      have hvret := readU32_at
        (((((write_labels nm ++ (u16Bytes 6 ++ (u16Bytes cl.to_u16
          ++ (u32Bytes ttlv ++ u16Bytes (SOAData.serialize s).length))))
            ++ write_labels s.mname) ++ write_labels s.rname)
              ++ u32Bytes s.serial) ++ u32Bytes s.refresh_in_secs)
        (u32Bytes s.expire_in_secs ++ u32Bytes s.minimum)
        ((s.retry_in_secs >>> 24) &&& 255) ((s.retry_in_secs >>> 16) &&& 255)
        ((s.retry_in_secs >>> 8) &&& 255) (s.retry_in_secs &&& 255)
      rw [u32Bytes_val s.retry_in_secs h3] at hvret
      have hpre4 : ((((((write_labels nm ++ (u16Bytes 6 ++ (u16Bytes cl.to_u16
          ++ (u32Bytes ttlv ++ u16Bytes (SOAData.serialize s).length))))
            ++ write_labels s.mname) ++ write_labels s.rname)
              ++ u32Bytes s.serial) ++ u32Bytes s.refresh_in_secs)).length
              = (write_labels nm).length + 10 + (write_labels s.mname).length
                  + (write_labels s.rname).length + 8 := by
        simp [u16Bytes, u32Bytes, List.length_append]
        omega
      rw [hpre4] at hvret
      have hret2 : readU32
          (recordBytes nm 6 cl.to_u16 ttlv (SOAData.serialize s))
          ((write_labels nm).length + 10 + (write_labels s.mname).length
            + (write_labels s.rname).length + 8) = some s.retry_in_secs := by
        simpa [recordBytes, SOAData.serialize, u32Bytes,
          List.append_assoc] using hvret
      have hvexp := readU32_at
        ((((((write_labels nm ++ (u16Bytes 6 ++ (u16Bytes cl.to_u16
          ++ (u32Bytes ttlv ++ u16Bytes (SOAData.serialize s).length))))
            ++ write_labels s.mname) ++ write_labels s.rname)
              ++ u32Bytes s.serial) ++ u32Bytes s.refresh_in_secs)
                ++ u32Bytes s.retry_in_secs)
        (u32Bytes s.minimum)
        ((s.expire_in_secs >>> 24) &&& 255) ((s.expire_in_secs >>> 16) &&& 255)
        ((s.expire_in_secs >>> 8) &&& 255) (s.expire_in_secs &&& 255)
      rw [u32Bytes_val s.expire_in_secs h4] at hvexp
      have hpre5 : (((((((write_labels nm ++ (u16Bytes 6 ++ (u16Bytes cl.to_u16
          ++ (u32Bytes ttlv ++ u16Bytes (SOAData.serialize s).length))))
            ++ write_labels s.mname) ++ write_labels s.rname)
              ++ u32Bytes s.serial) ++ u32Bytes s.refresh_in_secs)
                ++ u32Bytes s.retry_in_secs)).length
              = (write_labels nm).length + 10 + (write_labels s.mname).length
                  + (write_labels s.rname).length + 12 := by
        simp [u16Bytes, u32Bytes, List.length_append]
        omega
      rw [hpre5] at hvexp
      have hexp2 : readU32
          (recordBytes nm 6 cl.to_u16 ttlv (SOAData.serialize s))
          ((write_labels nm).length + 10 + (write_labels s.mname).length
            + (write_labels s.rname).length + 12) = some s.expire_in_secs := by
        simpa [recordBytes, SOAData.serialize, u32Bytes,
          List.append_assoc] using hvexp
      have hvmin := readU32_at
        (((((((write_labels nm ++ (u16Bytes 6 ++ (u16Bytes cl.to_u16
          ++ (u32Bytes ttlv ++ u16Bytes (SOAData.serialize s).length))))
            ++ write_labels s.mname) ++ write_labels s.rname)
              ++ u32Bytes s.serial) ++ u32Bytes s.refresh_in_secs)
                ++ u32Bytes s.retry_in_secs) ++ u32Bytes s.expire_in_secs)
        ([] : Bytes)
        ((s.minimum >>> 24) &&& 255) ((s.minimum >>> 16) &&& 255)
        ((s.minimum >>> 8) &&& 255) (s.minimum &&& 255)
      rw [u32Bytes_val s.minimum h5] at hvmin
      have hpre6 : ((((((((write_labels nm ++ (u16Bytes 6 ++ (u16Bytes cl.to_u16
          ++ (u32Bytes ttlv ++ u16Bytes (SOAData.serialize s).length))))
            ++ write_labels s.mname) ++ write_labels s.rname)
              ++ u32Bytes s.serial) ++ u32Bytes s.refresh_in_secs)
                ++ u32Bytes s.retry_in_secs) ++ u32Bytes s.expire_in_secs)).length
              = (write_labels nm).length + 10 + (write_labels s.mname).length
                  + (write_labels s.rname).length + 16 := by
        simp [u16Bytes, u32Bytes, List.length_append]
        omega
      rw [hpre6] at hvmin
      have hmin2 : readU32
          (recordBytes nm 6 cl.to_u16 ttlv (SOAData.serialize s))
          ((write_labels nm).length + 10 + (write_labels s.mname).length
            + (write_labels s.rname).length + 16) = some s.minimum := by
        simpa [recordBytes, SOAData.serialize, u32Bytes,
          List.append_assoc] using hvmin
      simp only [SOAData.deserialize, hmn2, hrn2, hser2, href2, hret2,
        hexp2, hmin2]
    simp only [deserialize_resource_records,
      recordBytes_name nm hnm 6 cl.to_u16 ttlv _ fuel hfu,
      recordBytes_type nm 6 cl.to_u16 ttlv (by norm_num) _,
      recordBytes_class nm 6 cl.to_u16 ttlv hcl _,
      recordBytes_ttl nm 6 cl.to_u16 ttlv httl _,
      recordBytes_rdlen nm 6 cl.to_u16 ttlv (SOAData.serialize s) hrdlen,
      recordBytes_rdata nm 6 cl.to_u16 ttlv _,
      hsoa, toClass_to_u16]
    simp [recordBytes_length]

/-- Claim C6, amended: decode(encode(r)) recovers owner name, typed
payload, class and ttl for records of the serializable types A, NS,
CNAME, SOA, TXT and AAAA, provided every name involved is wire-normal
(absolute, ASCII, labels of 1–63 chars, joined form longer than one
char), numeric fields fit their wire width and the rdata fits RDLENGTH.
PTR and MX — also listed by the claim — cannot round-trip: serialize
panics on them (see the counterexample). -/
theorem C6_roundtrip_serializable (rr : ResourceRecord)
    (h : serializableNormal rr) (fuel : Nat) (hfuel : fuelFor rr ≤ fuel) :
    ∃ bytes rr2, rr.serialize = .ok bytes
      ∧ deserialize_resource_records fuel bytes 0 1 = .ok ([rr2], bytes.length)
      ∧ rr2.name = rr.name ∧ rr2.rtype = rr.rtype ∧ rr2.rclass = rr.rclass
      ∧ rr2.ttl = rr.ttl := by
  obtain ⟨nm, ty, cl, ttlv, rdl⟩ := rr
  obtain ⟨hnm, httl, hty⟩ := h
  have hcl : cl.to_u16 < 65536 := by cases cl <;> decide
  cases ty with
  | A ip =>
    exact roundtrip_A nm ip cl ttlv rdl fuel hnm httl hcl
      (by simp only [fuelFor] at hfuel; omega)
  | AAAA ip =>
    obtain ⟨hg1, hg2, hg3, hg4, hg5, hg6, hg7, hg8⟩ := hty
    exact roundtrip_AAAA nm ip cl ttlv rdl fuel hnm httl hcl
      (by simp only [fuelFor] at hfuel; omega)
      hg1 hg2 hg3 hg4 hg5 hg6 hg7 hg8
  | NS n =>
    obtain ⟨hn, hrdlen⟩ := hty
    exact roundtrip_NS nm n cl ttlv rdl fuel hnm hn httl hcl hrdlen
      (by simp only [fuelFor] at hfuel; omega)
      (by simp only [fuelFor] at hfuel; omega)
  | CNAME n =>
    obtain ⟨hn, hrdlen⟩ := hty
    exact roundtrip_CNAME nm n cl ttlv rdl fuel hnm hn httl hcl hrdlen
      (by simp only [fuelFor] at hfuel; omega)
      (by simp only [fuelFor] at hfuel; omega)
  | SOA s =>
    obtain ⟨hm, hr, h1, h2, h3, h4, h5, hrdlen⟩ := hty
    exact roundtrip_SOA nm s cl ttlv rdl fuel hnm hm hr httl hcl
      h1 h2 h3 h4 h5 hrdlen
      (by simp only [fuelFor] at hfuel; omega)
      (by simp only [fuelFor] at hfuel; omega)
      (by simp only [fuelFor] at hfuel; omega)
  | TXT t =>
    obtain ⟨hlen, hd, hascii⟩ := hty
    exact roundtrip_TXT nm t cl ttlv rdl fuel hnm httl hcl
      (by simp only [fuelFor] at hfuel; omega)
      hlen hd hascii
  | PTR n => exact hty.elim
  | HINFO => exact hty.elim
  | MX d => exact hty.elim

/-- Witness for the amended C6: a concrete CNAME record round-trips. -/
theorem C6_roundtrip_serializable_witness :
    (serializableNormal
        { name := "www.example.org.", rtype := .CNAME "example.org.",
          rclass := .IN, ttl := 300, rd_length := 13 }
      ∧ fuelFor
          { name := "www.example.org.", rtype := .CNAME "example.org.",
            rclass := .IN, ttl := 300, rd_length := 13 } ≤ 9)
    ∧ ∃ bytes rr2,
        ResourceRecord.serialize
            { name := "www.example.org.", rtype := .CNAME "example.org.",
              rclass := .IN, ttl := 300, rd_length := 13 } = .ok bytes
        ∧ deserialize_resource_records 9 bytes 0 1 = .ok ([rr2], bytes.length)
        ∧ rr2.name = "www.example.org."
        ∧ rr2.rtype = .CNAME "example.org."
        ∧ rr2.rclass = .IN ∧ rr2.ttl = 300 :=
  have hsn : serializableNormal
      { name := "www.example.org.", rtype := .CNAME "example.org.",
        rclass := .IN, ttl := 300, rd_length := 13 } :=
    show normalName "www.example.org." ∧ 300 < 2 ^ 32
        ∧ (normalName "example.org." ∧ (write_labels "example.org.").length < 65536) from
      ⟨by decide, by decide, by decide, by decide⟩
  ⟨⟨hsn, by decide⟩,
    C6_roundtrip_serializable
      { name := "www.example.org.", rtype := .CNAME "example.org.",
        rclass := .IN, ttl := 300, rd_length := 13 }
      hsn 9 (by decide)⟩
